import Mathlib

/-!
Verification of the warehouse robot simulation core
(src/components/RobotScene.tsx).

The simulation core is embedded shallowly over the rationals.  The source
operates on JavaScript doubles and calls Math.sin, Math.cos and Math.sqrt;
these transcendental and root functions are abstracted as explicit function
parameters (sinF, cosF, sqrtF), so that every definition stays computable
and theorems quantify over the interpretations.  Wherever a concrete
evaluation is needed, the abstract functions are instantiated with maps
that agree with the true real functions at every argument actually
reached by the computation (all such arguments are chosen to be perfect
squares, or zero).
-/

/- Physics parameters, RobotScene.tsx lines 25-44. -/
namespace PHYSICS

def maxSpeed : ℚ := 2.2

def acceleration : ℚ := 4.0

def deceleration : ℚ := 5.0

def friction : ℚ := 3.0

def maxTurnSpeed : ℚ := 2.2

def turnAccel : ℚ := 6.0

def turnFriction : ℚ := 8.0

def headTurnSpeed : ℚ := 2.5

def headFriction : ℚ := 6.0

def headMaxRotation : ℚ := 1.2

def tiltAmount : ℚ := 0.08

def leanAmount : ℚ := 0.06

def tiltSmoothing : ℚ := 8.0

def leanSmoothing : ℚ := 10.0

def suspensionStiffness : ℚ := 80.0

def suspensionDamping : ℚ := 8.0

def bumpForce : ℚ := 0.015

def wheelRadius : ℚ := 0.3

end PHYSICS

/-- RobotScene.tsx line 46. -/
def ROBOT_RADIUS : ℚ := 0.5

/-- RobotScene.tsx line 47. -/
def COLLISION_PADDING : ℚ := 0.1

/-- The mutable robot state, robotStateRef (RobotScene.tsx lines 81-94). -/
structure KinState where
  x : ℚ
  z : ℚ
  rotation : ℚ
  velocity : ℚ
  angularVelocity : ℚ
  headRotY : ℚ
  headAngularVel : ℚ
  wheelRotation : ℚ
  bodyTilt : ℚ
  bodyLean : ℚ
  suspensionOffset : ℚ
  suspensionVelocity : ℚ
deriving DecidableEq

/-- The six input flags, actionsRef (RobotScene.tsx lines 96-103). -/
structure InputState where
  forward : Bool
  backward : Bool
  turnLeft : Bool
  turnRight : Bool
  headLeft : Bool
  headRight : Bool
deriving DecidableEq

/-- The input state with no flag set. -/
def noInput : InputState :=
  { forward := false, backward := false, turnLeft := false,
    turnRight := false, headLeft := false, headRight := false }

/-- A collidable proxy from the obstacle registry (collidableObjects).
In the source an entry carries a kind string, an optional mesh, a
radius and x/z coordinates; entries of kind "wall" are skipped by the
object-collision pass.  The x, z and radius fields here are the values
the source reads for a non-wall entry (all non-wall registrations,
RobotScene.tsx lines 938-1106, supply x, z and radius explicitly). -/
structure Obstacle where
  kind : String
  x : ℚ
  z : ℚ
  radius : ℚ
deriving DecidableEq

/-- Math.sign on rationals. -/
def qsign (q : ℚ) : ℚ :=
  if 0 < q then 1 else if q < 0 then -1 else 0

/-- Math.min on rationals (kernel-reducible, used instead of the lattice
operation so that concrete states evaluate by decide). -/
def qmin (a b : ℚ) : ℚ :=
  if a ≤ b then a else b

/-- Math.max on rationals. -/
def qmax (a b : ℚ) : ℚ :=
  if a ≤ b then b else a

/-- Math.abs on rationals. -/
def qabs (q : ℚ) : ℚ :=
  if q < 0 then -q else q

theorem qmin_eq (a b : ℚ) : qmin a b = min a b := by
  rw [qmin, min_def]

theorem qmax_eq (a b : ℚ) : qmax a b = max a b := by
  rw [qmax, max_def]

theorem qabs_eq (q : ℚ) : qabs q = |q| := by
  rcases lt_or_le q 0 with h | h
  · rw [qabs, if_pos h, abs_of_neg h]
  · rw [qabs, if_neg (not_lt.mpr h), abs_of_nonneg h]

/-- Result record of checkWallCollision (RobotScene.tsx lines 630-633). -/
structure WallResult where
  x : ℚ
  z : ℚ
deriving DecidableEq

/-- checkWallCollision, RobotScene.tsx lines 623-634: clamp the proposed
point into the arena box, inset by the robot effective radius on all
sides except the open +z side, whose bound is 10. -/
def checkWallCollision (newX newZ : ℚ) : WallResult :=
  let r := ROBOT_RADIUS + COLLISION_PADDING
  let minX := -9 + r
  let maxX := 9 - r
  let minZ := -9 + r
  let maxZ := (10 : ℚ)
  { x := qmax minX (qmin maxX newX), z := qmax minZ (qmin maxZ newZ) }

/-- Result record of checkObjectCollision and resolveCollisions. -/
structure ResolveResult where
  x : ℚ
  z : ℚ
  collision : Bool
deriving DecidableEq

/-- checkObjectCollision, RobotScene.tsx lines 636-667.  For every
non-wall obstacle the planar distance from the original proposed point
to the obstacle center is computed (sqrtF abstracts Math.sqrt); when it
is below robotR + objR and above the 0.001 epsilon the accumulated
result is pushed away from the center by the penetration depth along
the connecting normal.  All distances are measured from the original
input point (newX, newZ), exactly as in the source. -/
def checkObjectCollision (sqrtF : ℚ → ℚ) (objs : List Obstacle)
    (newX newZ : ℚ) : ResolveResult :=
  let robotR := ROBOT_RADIUS + COLLISION_PADDING
  objs.foldl
    (fun acc obj =>
      if obj.kind = "wall" then acc
      else
        let dx := newX - obj.x
        let dz := newZ - obj.z
        let distance := sqrtF (dx * dx + dz * dz)
        let minDist := robotR + obj.radius
        if distance < minDist ∧ 0.001 < distance then
          let pushDist := minDist - distance
          { x := acc.x + dx / distance * pushDist,
            z := acc.z + dz / distance * pushDist,
            collision := true }
        else acc)
    { x := newX, z := newZ, collision := false }

/-- resolveCollisions, RobotScene.tsx lines 669-679: object pass, then
wall clamp; the collision flag is set when either pass moved the point. -/
def resolveCollisions (sqrtF : ℚ → ℚ) (objs : List Obstacle)
    (newX newZ : ℚ) : ResolveResult :=
  let objResult := checkObjectCollision sqrtF objs newX newZ
  let wallResult := checkWallCollision objResult.x objResult.z
  let wallCollision :=
    decide (wallResult.x ≠ objResult.x) || decide (wallResult.z ≠ objResult.z)
  { x := wallResult.x, z := wallResult.z,
    collision := objResult.collision || wallCollision }

/-- Target linear velocity from the input flags
(RobotScene.tsx lines 1711-1713; the backward assignment runs second and
therefore wins when both flags are set). -/
def targetVel (a : InputState) : ℚ :=
  if a.backward then -PHYSICS.maxSpeed * 0.6
  else if a.forward then PHYSICS.maxSpeed
  else 0

/-- Linear velocity update, RobotScene.tsx lines 1715-1727. -/
def stepVelocity (a : InputState) (delta v : ℚ) : ℚ :=
  let targetVelocity := targetVel a
  if targetVelocity ≠ 0 then
    let accel :=
      if v < targetVelocity then PHYSICS.acceleration else PHYSICS.deceleration
    let v1 := v + qsign (targetVelocity - v) * accel * delta
    if qabs targetVelocity < qabs v1 then targetVelocity else v1
  else if 0.01 < qabs v then v - qsign v * PHYSICS.friction * delta
  else 0

/-- Angular velocity update, RobotScene.tsx lines 1729-1744; v1 is the
already-updated linear velocity (state.velocity at that point).  The
turnRight assignment runs second and wins when both turn flags are set. -/
def stepAngular (a : InputState) (delta v1 av : ℚ) : ℚ :=
  let base : ℚ :=
    if a.turnRight then -PHYSICS.maxTurnSpeed
    else if a.turnLeft then PHYSICS.maxTurnSpeed
    else 0
  let speedFactor := 1 - qabs v1 / PHYSICS.maxSpeed * 0.3
  let targetAngularVel := base * speedFactor
  if targetAngularVel ≠ 0 then
    av + (targetAngularVel - av) * PHYSICS.turnAccel * delta
  else if 0.01 < qabs av then av * (1 - PHYSICS.turnFriction * delta)
  else 0

/-- Head angular velocity update, RobotScene.tsx lines 1746-1754.  Note
the no-input branch multiplies unconditionally: there is no snap-to-zero
threshold for the head, unlike the linear and angular channels. -/
def stepHeadVel (a : InputState) (delta hv : ℚ) : ℚ :=
  let targetHeadVel : ℚ :=
    if a.headRight then -PHYSICS.headTurnSpeed
    else if a.headLeft then PHYSICS.headTurnSpeed
    else 0
  if targetHeadVel ≠ 0 then
    hv + (targetHeadVel - hv) * PHYSICS.headFriction * delta
  else hv * (1 - PHYSICS.headFriction * delta)

/-- updateMovement, RobotScene.tsx lines 1706-1829 (the numeric state
update; the trailing writes into scene-graph transforms and the
onSpeedChange telemetry callback, lines 1793-1828, render-side effects
with no feedback into the state, are not part of the state transition). -/
def updateMovement (sinF cosF sqrtF : ℚ → ℚ) (objs : List Obstacle)
    (a : InputState) (delta : ℚ) (s : KinState) : KinState :=
  let targetVelocity := targetVel a
  let velocity1 := stepVelocity a delta s.velocity
  let angularVelocity1 := stepAngular a delta velocity1 s.angularVelocity
  let headAngularVel1 := stepHeadVel a delta s.headAngularVel
  let headRotY1 :=
    qmax (-PHYSICS.headMaxRotation)
      (qmin PHYSICS.headMaxRotation (s.headRotY + headAngularVel1 * delta))
  let rotation1 := s.rotation + angularVelocity1 * delta
  let moveDistance := velocity1 * delta
  let proposedX := s.x + sinF rotation1 * moveDistance
  let proposedZ := s.z + cosF rotation1 * moveDistance
  let res := resolveCollisions sqrtF objs proposedX proposedZ
  let velocity2 := if res.collision then velocity1 * 0.5 else velocity1
  let suspensionVelocityA :=
    if res.collision then s.suspensionVelocity - 0.02 * qsign velocity2
    else s.suspensionVelocity
  let wheelRotation1 := s.wheelRotation + moveDistance / PHYSICS.wheelRadius
  let accelerationForce := (targetVelocity - velocity2) * 0.5
  let targetTilt := -accelerationForce * PHYSICS.tiltAmount
  let bodyTilt1 := s.bodyTilt + (targetTilt - s.bodyTilt) * PHYSICS.tiltSmoothing * delta
  let leanTarget :=
    -angularVelocity1 * PHYSICS.leanAmount * qmax 0.3 (qabs velocity2 / PHYSICS.maxSpeed)
  let bodyLean1 := s.bodyLean + (leanTarget - s.bodyLean) * PHYSICS.leanSmoothing * delta
  let velocityChange := qabs (targetVelocity - velocity2)
  let suspensionVelocityB :=
    if 0.5 < velocityChange then
      suspensionVelocityA - PHYSICS.bumpForce * qsign (targetVelocity - velocity2)
    else suspensionVelocityA
  let springForce := -s.suspensionOffset * PHYSICS.suspensionStiffness
  let dampingForce := -suspensionVelocityB * PHYSICS.suspensionDamping
  let suspensionVelocityC := suspensionVelocityB + (springForce + dampingForce) * delta
  let suspensionOffset1 := s.suspensionOffset + suspensionVelocityC * delta
  { x := res.x, z := res.z, rotation := rotation1, velocity := velocity2,
    angularVelocity := angularVelocity1, headRotY := headRotY1,
    headAngularVel := headAngularVel1, wheelRotation := wheelRotation1,
    bodyTilt := bodyTilt1, bodyLean := bodyLean1,
    suspensionOffset := suspensionOffset1, suspensionVelocity := suspensionVelocityC }

/-- One frame of the integrator as driven by the animation loop: the
elapsed time is clamped to at most 0.1 s (RobotScene.tsx line 2072)
before updateMovement runs (line 2075). -/
def integratorStep (sinF cosF sqrtF : ℚ → ℚ) (objs : List Obstacle)
    (a : InputState) (dt : ℚ) (s : KinState) : KinState :=
  updateMovement sinF cosF sqrtF objs a (qmin dt 0.1) s

/-- The constant-zero interpretation for an abstracted real function. -/
def zeroFun : ℚ → ℚ := fun _ => 0

/-- The constant-one interpretation for an abstracted real function. -/
def oneFun : ℚ → ℚ := fun _ => 1

/-- The all-zero robot state. -/
def zeroState : KinState :=
  { x := 0, z := 0, rotation := 0, velocity := 0, angularVelocity := 0,
    headRotY := 0, headAngularVel := 0, wheelRotation := 0, bodyTilt := 0,
    bodyLean := 0, suspensionOffset := 0, suspensionVelocity := 0 }

theorem abs_ite_le (c : Prop) [Decidable c] (B x y : ℚ)
    (hx : c → |x| ≤ B) (hy : ¬c → |y| ≤ B) : |if c then x else y| ≤ B := by
  split_ifs with h
  · exact hx h
  · exact hy h

theorem approach_bound (t av k δ : ℚ) (ht : |t| ≤ 22/10) (hav : |av| ≤ 22/10)
    (hk : 0 ≤ k * δ) (hk1 : k * δ ≤ 1) : |av + (t - av) * k * δ| ≤ 22/10 := by
  have hre : av + (t - av) * k * δ = av + (t - av) * (k * δ) := by ring
  rw [hre, abs_le]
  rw [abs_le] at ht hav
  constructor <;>
    nlinarith [mul_nonneg (sub_nonneg.2 ht.2) hk,
      mul_nonneg (sub_nonneg.2 hav.2) (sub_nonneg.2 hk1),
      mul_nonneg (by linarith [ht.1] : (0:ℚ) ≤ t + 22/10) hk,
      mul_nonneg (by linarith [hav.1] : (0:ℚ) ≤ av + 22/10) (sub_nonneg.2 hk1)]

theorem decay_bound (av k : ℚ) (hav : |av| ≤ 22/10) (hk0 : 0 ≤ k) (hk1 : k ≤ 1) :
    |av * k| ≤ 22/10 := by
  rw [abs_mul, abs_of_nonneg hk0]
  nlinarith [hav, abs_nonneg av, mul_nonneg (abs_nonneg av) (sub_nonneg.2 hk1)]

theorem stepVelocity_bound (a : InputState) (δ v : ℚ) (h0 : 0 ≤ δ) (h1 : δ ≤ 1/10)
    (hv : |v| ≤ 22/10) : |stepVelocity a δ v| ≤ 22/10 := by
  have hT : |targetVel a| ≤ 22/10 := by
    rw [targetVel]
    split_ifs <;> rw [abs_le] <;> constructor <;> norm_num [PHYSICS.maxSpeed]
  have hf : PHYSICS.friction = 3 := by norm_num [PHYSICS.friction]
  simp only [stepVelocity]
  refine abs_ite_le _ _ _ _ (fun _ => ?_) (fun _ => ?_)
  · refine abs_ite_le _ _ _ _ (fun _ => hT) (fun hns => ?_)
    rw [not_lt, qabs_eq, qabs_eq] at hns
    exact hns.trans hT
  · refine abs_ite_le _ _ _ _ (fun hco => ?_) (fun _ => by norm_num)
    rw [qabs_eq] at hco
    rw [abs_le] at hv
    rw [abs_le, hf, qsign]
    rcases lt_trichotomy v 0 with hvn | hvz | hvp
    · rw [if_neg (by linarith), if_pos hvn]
      rw [abs_of_neg hvn] at hco
      constructor <;> linarith
    · rw [hvz, abs_zero] at hco
      norm_num at hco
    · rw [if_pos hvp]
      rw [abs_of_pos hvp] at hco
      constructor <;> linarith

theorem stepAngular_bound (a : InputState) (δ v1 av : ℚ) (h0 : 0 ≤ δ) (h1 : δ ≤ 1/10)
    (hv1 : |v1| ≤ 22/10) (hav : |av| ≤ 22/10) : |stepAngular a δ v1 av| ≤ 22/10 := by
  have hms : PHYSICS.maxSpeed = 22/10 := by norm_num [PHYSICS.maxSpeed]
  have hmt : PHYSICS.maxTurnSpeed = 22/10 := by norm_num [PHYSICS.maxTurnSpeed]
  have hta : PHYSICS.turnAccel = 6 := by norm_num [PHYSICS.turnAccel]
  have htf : PHYSICS.turnFriction = 8 := by norm_num [PHYSICS.turnFriction]
  have hsfu : 1 - qabs v1 / PHYSICS.maxSpeed * 0.3 ≤ 1 := by
    rw [qabs_eq, hms]
    nlinarith [abs_nonneg v1]
  have hsfl : (0:ℚ) ≤ 1 - qabs v1 / PHYSICS.maxSpeed * 0.3 := by
    rw [qabs_eq, hms]
    nlinarith [hv1]
  simp only [stepAngular]
  refine abs_ite_le _ _ _ _ (fun _ => ?_) (fun _ => ?_)
  · refine approach_bound _ _ _ _ ?_ hav ?_ ?_
    · rw [abs_mul]
      have hbase : |(if a.turnRight = true then -PHYSICS.maxTurnSpeed
          else if a.turnLeft = true then PHYSICS.maxTurnSpeed else 0)| ≤ 22/10 := by
        split_ifs <;> rw [abs_le] <;> constructor <;> norm_num [PHYSICS.maxTurnSpeed]
      have hsfabs : |1 - qabs v1 / PHYSICS.maxSpeed * 0.3| ≤ 1 := by
        rw [abs_of_nonneg hsfl]
        exact hsfu
      have := mul_le_mul hbase hsfabs (abs_nonneg _) (by norm_num)
      linarith
    · rw [hta]
      linarith
    · rw [hta]
      linarith
  · refine abs_ite_le _ _ _ _ (fun _ => ?_) (fun _ => by norm_num)
    exact decay_bound _ _ hav (by rw [htf]; linarith) (by rw [htf]; linarith)

theorem headClamp_bound (x : ℚ) :
    |qmax (-PHYSICS.headMaxRotation) (qmin PHYSICS.headMaxRotation x)| ≤
      PHYSICS.headMaxRotation := by
  have hmr : PHYSICS.headMaxRotation = 6/5 := by norm_num [PHYSICS.headMaxRotation]
  rw [qmax_eq, qmin_eq, hmr, abs_le]
  refine ⟨le_max_left _ _, max_le (by norm_num) ((min_le_left _ _))⟩

set_option maxHeartbeats 1000000 in
/-- C1.  For every starting state with bounded velocity, angular velocity
and head yaw, every input state, every interpretation of the abstracted
real functions, every obstacle list, and every dt at least 0 (the
animation loop clamps dt to at most 0.1 before the integrator runs),
one Motion Integrator step keeps the speed within maxSpeed, the angular
velocity within maxTurnSpeed, and the head yaw within headMaxRotation. -/
theorem C1_integrator_invariants (sinF cosF sqrtF : ℚ → ℚ) (objs : List Obstacle)
    (a : InputState) (dt : ℚ) (s : KinState)
    (hv : |s.velocity| ≤ PHYSICS.maxSpeed)
    (hav : |s.angularVelocity| ≤ PHYSICS.maxTurnSpeed)
    (hh : |s.headRotY| ≤ PHYSICS.headMaxRotation)
    (hdt : 0 ≤ dt) :
    |(integratorStep sinF cosF sqrtF objs a dt s).velocity| ≤ PHYSICS.maxSpeed ∧
    |(integratorStep sinF cosF sqrtF objs a dt s).angularVelocity| ≤ PHYSICS.maxTurnSpeed ∧
    |(integratorStep sinF cosF sqrtF objs a dt s).headRotY| ≤ PHYSICS.headMaxRotation := by
  have hms : PHYSICS.maxSpeed = 22/10 := by norm_num [PHYSICS.maxSpeed]
  have hmt : PHYSICS.maxTurnSpeed = 22/10 := by norm_num [PHYSICS.maxTurnSpeed]
  have hmr : PHYSICS.headMaxRotation = 6/5 := by norm_num [PHYSICS.headMaxRotation]
  have hd0 : 0 ≤ qmin dt 0.1 := by
    rw [qmin_eq]
    exact le_min hdt (by norm_num)
  have hd1 : qmin dt 0.1 ≤ 1/10 := by
    rw [qmin_eq]
    exact (min_le_right _ _).trans (by norm_num)
  have hv1 : |stepVelocity a (qmin dt 0.1) s.velocity| ≤ 22/10 :=
    stepVelocity_bound a _ _ hd0 hd1 (hms ▸ hv)
  refine ⟨?_, ?_, ?_⟩
  · obtain ⟨b, hb⟩ : ∃ b : Bool,
        (integratorStep sinF cosF sqrtF objs a dt s).velocity =
          if b then stepVelocity a (qmin dt 0.1) s.velocity * 0.5
          else stepVelocity a (qmin dt 0.1) s.velocity := ⟨_, rfl⟩
    rw [hb, hms]
    cases b
    · simpa using hv1
    · rw [if_pos rfl, abs_mul]
      have h05 : |(0.5 : ℚ)| = 1/2 := by
        rw [abs_of_pos] <;> norm_num
      rw [h05]
      nlinarith [abs_nonneg (stepVelocity a (qmin dt 0.1) s.velocity)]
  · have heq : (integratorStep sinF cosF sqrtF objs a dt s).angularVelocity =
        stepAngular a (qmin dt 0.1) (stepVelocity a (qmin dt 0.1) s.velocity)
          s.angularVelocity := rfl
    rw [heq, hmt]
    exact stepAngular_bound a _ _ _ hd0 hd1 hv1 (hmt ▸ hav)
  · have heq : (integratorStep sinF cosF sqrtF objs a dt s).headRotY =
        qmax (-PHYSICS.headMaxRotation)
          (qmin PHYSICS.headMaxRotation
            (s.headRotY + stepHeadVel a (qmin dt 0.1) s.headAngularVel * qmin dt 0.1)) := rfl
    rw [heq]
    exact headClamp_bound _

/-- Witness for C1 at a concrete input. -/
theorem C1_witness :
    |zeroState.velocity| ≤ PHYSICS.maxSpeed ∧
    |zeroState.angularVelocity| ≤ PHYSICS.maxTurnSpeed ∧
    |zeroState.headRotY| ≤ PHYSICS.headMaxRotation ∧ (0:ℚ) ≤ 0 ∧
    (|(integratorStep zeroFun oneFun zeroFun [] noInput 0 zeroState).velocity| ≤ PHYSICS.maxSpeed ∧
     |(integratorStep zeroFun oneFun zeroFun [] noInput 0 zeroState).angularVelocity| ≤ PHYSICS.maxTurnSpeed ∧
     |(integratorStep zeroFun oneFun zeroFun [] noInput 0 zeroState).headRotY| ≤ PHYSICS.headMaxRotation) := by
  have h1 : |zeroState.velocity| ≤ PHYSICS.maxSpeed := by
    norm_num [zeroState, PHYSICS.maxSpeed]
  have h2 : |zeroState.angularVelocity| ≤ PHYSICS.maxTurnSpeed := by
    norm_num [zeroState, PHYSICS.maxTurnSpeed]
  have h3 : |zeroState.headRotY| ≤ PHYSICS.headMaxRotation := by
    norm_num [zeroState, PHYSICS.headMaxRotation]
  exact ⟨h1, h2, h3, le_refl 0,
    C1_integrator_invariants zeroFun oneFun zeroFun [] noInput 0 zeroState h1 h2 h3 (le_refl 0)⟩

/-- The squared planar distance dx * dx + dz * dz computed by
checkObjectCollision (RobotScene.tsx lines 651-653). -/
def dist2 (px pz cx cz : ℚ) : ℚ :=
  (px - cx) * (px - cx) + (pz - cz) * (pz - cz)

/-- A registry holding one circular obstacle proxy. -/
def obstacleAt (cx cz r : ℚ) : List Obstacle :=
  [{ kind := "prop", x := cx, z := cz, radius := r }]

theorem checkObjectCollision_at (sqrtF : ℚ → ℚ) (cx cz r px pz : ℚ) :
    checkObjectCollision sqrtF (obstacleAt cx cz r) px pz =
      if sqrtF (dist2 px pz cx cz) < ROBOT_RADIUS + COLLISION_PADDING + r ∧
          0.001 < sqrtF (dist2 px pz cx cz) then
        { x := px + (px - cx) / sqrtF (dist2 px pz cx cz) *
              (ROBOT_RADIUS + COLLISION_PADDING + r - sqrtF (dist2 px pz cx cz)),
          z := pz + (pz - cz) / sqrtF (dist2 px pz cx cz) *
              (ROBOT_RADIUS + COLLISION_PADDING + r - sqrtF (dist2 px pz cx cz)),
          collision := true }
      else { x := px, z := pz, collision := false } := by
  simp only [checkObjectCollision, obstacleAt, List.foldl_cons, List.foldl_nil, dist2]
  rw [if_neg (by decide : ¬("prop" : String) = "wall")]

theorem wallClamp_x (px pz : ℚ) :
    (checkWallCollision px pz).x =
      qmax (-9 + (ROBOT_RADIUS + COLLISION_PADDING))
        (qmin (9 - (ROBOT_RADIUS + COLLISION_PADDING)) px) := rfl

theorem wallClamp_z (px pz : ℚ) :
    (checkWallCollision px pz).z =
      qmax (-9 + (ROBOT_RADIUS + COLLISION_PADDING)) (qmin 10 pz) := rfl

theorem wall_lo : (-9 : ℚ) + (ROBOT_RADIUS + COLLISION_PADDING) = -(42/5) := by
  norm_num [ROBOT_RADIUS, COLLISION_PADDING]

theorem wall_hi : (9 : ℚ) - (ROBOT_RADIUS + COLLISION_PADDING) = 42/5 := by
  norm_num [ROBOT_RADIUS, COLLISION_PADDING]

theorem wallClamp_bounds (px pz : ℚ) :
    -(42/5) ≤ (checkWallCollision px pz).x ∧ (checkWallCollision px pz).x ≤ 42/5 ∧
    -(42/5) ≤ (checkWallCollision px pz).z ∧ (checkWallCollision px pz).z ≤ 10 := by
  rw [wallClamp_x, wallClamp_z, wall_lo, wall_hi, qmax_eq, qmax_eq, qmin_eq, qmin_eq]
  refine ⟨le_max_left _ _, max_le (by norm_num) (min_le_left _ _),
    le_max_left _ _, max_le (by norm_num) (min_le_left _ _)⟩

theorem wallClamp_id (px pz : ℚ) (hx1 : -(42/5) ≤ px) (hx2 : px ≤ 42/5)
    (hz1 : -(42/5) ≤ pz) (hz2 : pz ≤ 10) :
    checkWallCollision px pz = { x := px, z := pz } := by
  simp only [checkWallCollision]
  rw [wall_lo, wall_hi, qmax_eq, qmax_eq, qmin_eq, qmin_eq,
    min_eq_right hx2, max_eq_right hx1, min_eq_right hz2, max_eq_right hz1]

theorem clamp_again (lo hi v : ℚ) (h : lo ≤ hi) :
    qmax lo (qmin hi (qmax lo (qmin hi v))) = qmax lo (qmin hi v) := by
  rw [qmax_eq, qmax_eq, qmin_eq, qmin_eq]
  have h1 : max lo (min hi v) ≤ hi := max_le h (min_le_left _ _)
  have h2 : lo ≤ max lo (min hi v) := le_max_left _ _
  rw [min_eq_right h1, max_eq_right h2]

theorem wallResult_ext (w1 w2 : WallResult) (h1 : w1.x = w2.x) (h2 : w1.z = w2.z) :
    w1 = w2 := by
  cases w1
  cases w2
  cases h1
  cases h2
  rfl

theorem wallClamp_again (px pz : ℚ) :
    checkWallCollision (checkWallCollision px pz).x (checkWallCollision px pz).z =
      checkWallCollision px pz := by
  have hx : (checkWallCollision (checkWallCollision px pz).x (checkWallCollision px pz).z).x
      = (checkWallCollision px pz).x := by
    rw [wallClamp_x, wallClamp_x]
    exact clamp_again _ _ _ (by rw [wall_lo, wall_hi]; norm_num)
  have hz : (checkWallCollision (checkWallCollision px pz).x (checkWallCollision px pz).z).z
      = (checkWallCollision px pz).z := by
    rw [wallClamp_z, wallClamp_z]
    exact clamp_again _ _ _ (by rw [wall_lo]; norm_num)
  exact wallResult_ext _ _ hx hz

theorem clamp_boundary (lo hi v : ℚ) (h : qmax lo (qmin hi v) ≠ v) :
    qmax lo (qmin hi v) = lo ∨ qmax lo (qmin hi v) = hi := by
  rw [qmax_eq, qmin_eq] at *
  rcases le_total v hi with h1 | h1
  · rw [min_eq_right h1] at *
    rcases le_total lo v with h2 | h2
    · rw [max_eq_right h2] at h
      exact absurd rfl h
    · rw [max_eq_left h2]
      exact Or.inl rfl
  · rw [min_eq_left h1] at *
    rcases le_total lo hi with h2 | h2
    · rw [max_eq_right h2]
      exact Or.inr rfl
    · rw [max_eq_left h2]
      exact Or.inl rfl

theorem resolve_x (sqrtF : ℚ → ℚ) (objs : List Obstacle) (px pz : ℚ) :
    (resolveCollisions sqrtF objs px pz).x =
      (checkWallCollision (checkObjectCollision sqrtF objs px pz).x
        (checkObjectCollision sqrtF objs px pz).z).x := rfl

theorem resolve_z (sqrtF : ℚ → ℚ) (objs : List Obstacle) (px pz : ℚ) :
    (resolveCollisions sqrtF objs px pz).z =
      (checkWallCollision (checkObjectCollision sqrtF objs px pz).x
        (checkObjectCollision sqrtF objs px pz).z).z := rfl

/-- C5.  The wall-clamp stage always lands in the inset arena box
(the +z side keeps its larger bound 10, the open loading-bay edge), and
a proposed x of 20 clamps to exactly 8.4, for every proposed z. -/
theorem C5_wall_clamp (px pz : ℚ) :
    (-(42/5) ≤ (checkWallCollision px pz).x ∧ (checkWallCollision px pz).x ≤ 42/5 ∧
     -(42/5) ≤ (checkWallCollision px pz).z ∧ (checkWallCollision px pz).z ≤ 10) ∧
    (checkWallCollision 20 pz).x = 42/5 := by
  refine ⟨wallClamp_bounds px pz, ?_⟩
  rw [wallClamp_x, wall_lo, wall_hi, qmax_eq, qmin_eq]
  rw [min_eq_left (by norm_num), max_eq_right (by norm_num)]

/-- The single obstacle of C4: a circle of radius 0.5 at the origin. -/
def obC4 : List Obstacle := obstacleAt 0 0 (1/2)

/-- An interpretation of Math.sqrt that agrees with the true square root
at 0.09, the only argument reached in the C4 and C6 witnesses. -/
def sqrtTable9 : ℚ → ℚ := fun q => if q = 9/100 then 3/10 else 0

/-- C4.  With one circular obstacle of radius 0.5 at the origin and
robot effective radius 0.6, any proposed point at distance 0.3 from the
origin is pushed to exactly distance 1.1 along the same direction, with
the collision flag set.  sqrtF is pinned to the true square root at the
one argument the code evaluates it on. -/
theorem C4_push_to_boundary (sqrtF : ℚ → ℚ) (x z : ℚ)
    (hs : sqrtF (9/100) = 3/10) (hd : x * x + z * z = 9/100) :
    (checkObjectCollision sqrtF obC4 x z).x = 11/3 * x ∧
    (checkObjectCollision sqrtF obC4 x z).z = 11/3 * z ∧
    (checkObjectCollision sqrtF obC4 x z).collision = true ∧
    (checkObjectCollision sqrtF obC4 x z).x * (checkObjectCollision sqrtF obC4 x z).x +
      (checkObjectCollision sqrtF obC4 x z).z * (checkObjectCollision sqrtF obC4 x z).z
      = (11/10) * (11/10) := by
  have key : checkObjectCollision sqrtF obC4 x z =
      { x := 11/3 * x, z := 11/3 * z, collision := true } := by
    rw [obC4, checkObjectCollision_at]
    have hD : dist2 x z 0 0 = 9/100 := by
      rw [dist2]
      simpa using hd
    rw [hD, hs]
    rw [if_pos (by constructor <;> norm_num [ROBOT_RADIUS, COLLISION_PADDING])]
    simp only [ResolveResult.mk.injEq]
    refine ⟨?_, ?_, trivial⟩ <;> norm_num [ROBOT_RADIUS, COLLISION_PADDING] <;> ring
  rw [key]
  refine ⟨rfl, rfl, rfl, ?_⟩
  linear_combination (121/9) * hd

/-- Witness for C4 at the concrete proposed point (0.3, 0). -/
theorem C4_witness :
    (sqrtTable9 (9/100) = 3/10) ∧
    ((3/10 : ℚ) * (3/10) + 0 * 0 = 9/100) ∧
    ((checkObjectCollision sqrtTable9 obC4 (3/10) 0).x = 11/3 * (3/10) ∧
     (checkObjectCollision sqrtTable9 obC4 (3/10) 0).z = 11/3 * 0 ∧
     (checkObjectCollision sqrtTable9 obC4 (3/10) 0).collision = true ∧
     (checkObjectCollision sqrtTable9 obC4 (3/10) 0).x *
        (checkObjectCollision sqrtTable9 obC4 (3/10) 0).x +
      (checkObjectCollision sqrtTable9 obC4 (3/10) 0).z *
        (checkObjectCollision sqrtTable9 obC4 (3/10) 0).z
        = (11/10) * (11/10)) := by
  refine ⟨by norm_num [sqrtTable9], by norm_num, ?_⟩
  exact C4_push_to_boundary sqrtTable9 (3/10) 0 (by norm_num [sqrtTable9]) (by norm_num)

/-- C6.  The epsilon guard of the object-collision pass on a single
circular obstacle: no push at or below the 0.001 epsilon distance and
none at or beyond the combined radius; a push by the exact penetration
depth along the connecting normal happens exactly in between, landing
the point at the combined radius from the obstacle center.  The clause
about avoiding division by zero is rendered as the no-push clause: in
the guarded regime the quotient dx / distance is never formed with a
zero denominator (over the rationals division by zero is a total stub
and the guard makes the branch unreachable). -/
theorem C6_epsilon_guard (sqrtF : ℚ → ℚ) (cx cz r px pz : ℚ)
    (hsq : sqrtF (dist2 px pz cx cz) * sqrtF (dist2 px pz cx cz) = dist2 px pz cx cz) :
    (sqrtF (dist2 px pz cx cz) ≤ 0.001 →
      checkObjectCollision sqrtF (obstacleAt cx cz r) px pz =
        { x := px, z := pz, collision := false }) ∧
    (ROBOT_RADIUS + COLLISION_PADDING + r ≤ sqrtF (dist2 px pz cx cz) →
      checkObjectCollision sqrtF (obstacleAt cx cz r) px pz =
        { x := px, z := pz, collision := false }) ∧
    (0.001 < sqrtF (dist2 px pz cx cz) →
      sqrtF (dist2 px pz cx cz) < ROBOT_RADIUS + COLLISION_PADDING + r →
      (checkObjectCollision sqrtF (obstacleAt cx cz r) px pz).collision = true ∧
      (checkObjectCollision sqrtF (obstacleAt cx cz r) px pz).x - cx =
        (ROBOT_RADIUS + COLLISION_PADDING + r) / sqrtF (dist2 px pz cx cz) * (px - cx) ∧
      (checkObjectCollision sqrtF (obstacleAt cx cz r) px pz).z - cz =
        (ROBOT_RADIUS + COLLISION_PADDING + r) / sqrtF (dist2 px pz cx cz) * (pz - cz) ∧
      dist2 (checkObjectCollision sqrtF (obstacleAt cx cz r) px pz).x
          (checkObjectCollision sqrtF (obstacleAt cx cz r) px pz).z cx cz =
        (ROBOT_RADIUS + COLLISION_PADDING + r) * (ROBOT_RADIUS + COLLISION_PADDING + r)) := by
  refine ⟨?_, ?_, ?_⟩
  · intro h
    rw [checkObjectCollision_at, if_neg]
    rintro ⟨-, h2⟩
    exact absurd h (not_le.mpr h2)
  · intro h
    rw [checkObjectCollision_at, if_neg]
    rintro ⟨h1, -⟩
    exact absurd h (not_le.mpr h1)
  · intro h1 h2
    obtain ⟨d, hd⟩ : ∃ d, sqrtF (dist2 px pz cx cz) = d := ⟨_, rfl⟩
    obtain ⟨m, hm⟩ : ∃ m, ROBOT_RADIUS + COLLISION_PADDING + r = m := ⟨_, rfl⟩
    rw [checkObjectCollision_at]
    rw [hd] at h1 h2 hsq ⊢
    rw [hm] at h2 ⊢
    have hd0 : d ≠ 0 := by
      intro h0
      rw [h0] at h1
      norm_num at h1
    rw [if_pos ⟨h2, h1⟩]
    dsimp only
    have hx' : px + (px - cx) / d * (m - d) - cx = m / d * (px - cx) := by
      field_simp
      ring
    have hz' : pz + (pz - cz) / d * (m - d) - cz = m / d * (pz - cz) := by
      field_simp
      ring
    refine ⟨rfl, hx', hz', ?_⟩
    rw [dist2, hx', hz']
    rw [show m / d * (px - cx) * (m / d * (px - cx)) + m / d * (pz - cz) * (m / d * (pz - cz))
        = m / d * (m / d) * ((px - cx) * (px - cx) + (pz - cz) * (pz - cz)) from by ring]
    rw [dist2] at hsq
    rw [← hsq]
    field_simp

/-- Witness for C6 at the concrete proposed point (0.3, 0) against the
obstacle of C4. -/
theorem C6_witness :
    (sqrtTable9 (dist2 (3/10) 0 0 0) * sqrtTable9 (dist2 (3/10) 0 0 0)
      = dist2 (3/10) 0 0 0) ∧
    (0.001 < sqrtTable9 (dist2 (3/10) 0 0 0) →
      sqrtTable9 (dist2 (3/10) 0 0 0) < ROBOT_RADIUS + COLLISION_PADDING + 1/2 →
      (checkObjectCollision sqrtTable9 (obstacleAt 0 0 (1/2)) (3/10) 0).collision = true ∧
      (checkObjectCollision sqrtTable9 (obstacleAt 0 0 (1/2)) (3/10) 0).x - 0 =
        (ROBOT_RADIUS + COLLISION_PADDING + 1/2) /
          sqrtTable9 (dist2 (3/10) 0 0 0) * (3/10 - 0) ∧
      (checkObjectCollision sqrtTable9 (obstacleAt 0 0 (1/2)) (3/10) 0).z - 0 =
        (ROBOT_RADIUS + COLLISION_PADDING + 1/2) /
          sqrtTable9 (dist2 (3/10) 0 0 0) * (0 - 0) ∧
      dist2 (checkObjectCollision sqrtTable9 (obstacleAt 0 0 (1/2)) (3/10) 0).x
        (checkObjectCollision sqrtTable9 (obstacleAt 0 0 (1/2)) (3/10) 0).z 0 0 =
        (ROBOT_RADIUS + COLLISION_PADDING + 1/2) * (ROBOT_RADIUS + COLLISION_PADDING + 1/2)) := by
  refine ⟨by norm_num [dist2, sqrtTable9], ?_⟩
  exact (C6_epsilon_guard sqrtTable9 0 0 (1/2) (3/10) 0 (by norm_num [dist2, sqrtTable9])).2.2

/-- The obstacle of the C3 counterexample: a circle of radius 0.5 at
(8, 0), whose influence disk of radius 1.1 crosses the arena bound at
x = 8.4. -/
def obsC3 : List Obstacle := obstacleAt 8 0 (1/2)

/-- An interpretation of Math.sqrt that agrees with the true square root
at 25/16 and 289/400, the only two arguments the C3 counterexample trace
evaluates it on (both are perfect squares of rationals). -/
def sqrtC3 : ℚ → ℚ :=
  fun q => if q = 25/16 then 5/4 else if q = 289/400 then 17/20 else 0

theorem c3_first_pass : resolveCollisions sqrtC3 obsC3 9 (3/4) =
    { x := 42/5, z := 3/4, collision := true } := by
  have hobj : checkObjectCollision sqrtC3 obsC3 9 (3/4) =
      { x := 9, z := 3/4, collision := false } := by
    rw [obsC3, checkObjectCollision_at, if_neg]
    norm_num [dist2, sqrtC3, ROBOT_RADIUS, COLLISION_PADDING]
  have hwall : checkWallCollision 9 (3/4) = { x := 42/5, z := 3/4 } := by
    simp only [checkWallCollision]
    rw [wall_lo, wall_hi]
    norm_num [qmin, qmax]
  simp only [resolveCollisions, hobj, hwall]
  norm_num

theorem c3_second_pass : resolveCollisions sqrtC3 obsC3 (42/5) (3/4) =
    { x := 42/5, z := 33/34, collision := true } := by
  have hobj : checkObjectCollision sqrtC3 obsC3 (42/5) (3/4) =
      { x := 724/85, z := 33/34, collision := true } := by
    rw [obsC3, checkObjectCollision_at]
    have hD : dist2 (42/5) (3/4) 8 0 = 289/400 := by norm_num [dist2]
    rw [hD]
    have hs : sqrtC3 (289/400) = 17/20 := by norm_num [sqrtC3]
    rw [hs, if_pos (by norm_num [ROBOT_RADIUS, COLLISION_PADDING])]
    simp only [ResolveResult.mk.injEq]
    refine ⟨?_, ?_, trivial⟩ <;> norm_num [ROBOT_RADIUS, COLLISION_PADDING]
  have hwall : checkWallCollision (724/85) (33/34) = { x := 42/5, z := 33/34 } := by
    simp only [checkWallCollision]
    rw [wall_lo, wall_hi]
    norm_num [qmin, qmax]
  simp only [resolveCollisions, hobj, hwall]
  norm_num

/-- C3 counterexample.  The resolver is not idempotent for a fixed
non-overlapping obstacle set: with a single circular obstacle at (8, 0)
of radius 0.5, the proposed point (9, 0.75) is outside the obstacle
influence region and only wall-clamped to (8.4, 0.75); but the clamped
point is inside the influence region, so a second pass pushes it again,
to (8.4, 33/34).  sqrtC3 agrees with the true square root at both
arguments the trace reaches. -/
theorem C3_counterexample :
    ¬ ((resolveCollisions sqrtC3 obsC3
          (resolveCollisions sqrtC3 obsC3 9 (3/4)).x
          (resolveCollisions sqrtC3 obsC3 9 (3/4)).z).x
        = (resolveCollisions sqrtC3 obsC3 9 (3/4)).x ∧
       (resolveCollisions sqrtC3 obsC3
          (resolveCollisions sqrtC3 obsC3 9 (3/4)).x
          (resolveCollisions sqrtC3 obsC3 9 (3/4)).z).z
        = (resolveCollisions sqrtC3 obsC3 9 (3/4)).z) := by
  rw [c3_first_pass]
  dsimp only
  rw [c3_second_pass]
  rintro ⟨-, h⟩
  norm_num at h

theorem pushed_dist2 (cx cz px pz d m : ℚ) (hd0 : d ≠ 0)
    (hsq : d * d = (px - cx) * (px - cx) + (pz - cz) * (pz - cz)) :
    dist2 (px + (px - cx) / d * (m - d)) (pz + (pz - cz) / d * (m - d)) cx cz = m * m := by
  rw [dist2]
  rw [show px + (px - cx) / d * (m - d) - cx = m / d * (px - cx) from by field_simp; ring,
      show pz + (pz - cz) / d * (m - d) - cz = m / d * (pz - cz) from by field_simp; ring]
  rw [show m / d * (px - cx) * (m / d * (px - cx)) + m / d * (pz - cz) * (m / d * (pz - cz))
      = m / d * (m / d) * ((px - cx) * (px - cx) + (pz - cz) * (pz - cz)) from by ring]
  rw [← hsq]
  field_simp

/-- The influence radius of an obstacle: robot radius + collision
padding + obstacle radius (the minDist of RobotScene.tsx line 654).  A
proposed point strictly closer than this to the obstacle center (and
beyond the 0.001 epsilon) is pushed. -/
def influenceRadius (o : Obstacle) : ℚ :=
  ROBOT_RADIUS + COLLISION_PADDING + o.radius

/-- Two non-wall obstacles have disjoint influence disks: their centers
are at least the sum of the influence radii apart (stated on squared
distances, so no square root is needed). -/
def sepRel (o o' : Obstacle) : Prop :=
  ¬ o.kind = "wall" → ¬ o'.kind = "wall" →
    (influenceRadius o + influenceRadius o') * (influenceRadius o + influenceRadius o') ≤
      dist2 o.x o.z o'.x o'.z

theorem sepRel_symm : Symmetric sepRel := by
  intro o o' h hk' hk
  have h0 := h hk hk'
  have hcomm : dist2 o'.x o'.z o.x o.z = dist2 o.x o.z o'.x o'.z := by
    rw [dist2, dist2]; ring
  rw [hcomm, add_comm (influenceRadius o') (influenceRadius o)]
  exact h0

theorem influenceRadius_nonneg (o : Obstacle) (h : 0 ≤ o.radius) :
    0 ≤ influenceRadius o := by
  have h0 : (0 : ℚ) ≤ ROBOT_RADIUS + COLLISION_PADDING := by
    norm_num [ROBOT_RADIUS, COLLISION_PADDING]
  rw [influenceRadius]
  linarith

/-- The contribution of one obstacle to the object-collision pass at the
proposed point (px, pz): x-offset, z-offset and whether it pushed.  In
the source every obstacle's distance is taken from the original proposed
point, never from the accumulated result, so the contribution depends
only on (px, pz). -/
def obstaclePush (sqrtF : ℚ → ℚ) (px pz : ℚ) (o : Obstacle) : ℚ × ℚ × Bool :=
  if o.kind = "wall" then (0, 0, false)
  else
    let distance := sqrtF (dist2 px pz o.x o.z)
    let minDist := influenceRadius o
    if distance < minDist ∧ 0.001 < distance then
      ((px - o.x) / distance * (minDist - distance),
       (pz - o.z) / distance * (minDist - distance), true)
    else (0, 0, false)

/-- The fold body of checkObjectCollision as a named function. -/
def objAccum (sqrtF : ℚ → ℚ) (newX newZ : ℚ) (acc : ResolveResult)
    (obj : Obstacle) : ResolveResult :=
  if obj.kind = "wall" then acc
  else
    let dx := newX - obj.x
    let dz := newZ - obj.z
    let distance := sqrtF (dx * dx + dz * dz)
    let minDist := ROBOT_RADIUS + COLLISION_PADDING + obj.radius
    if distance < minDist ∧ 0.001 < distance then
      let pushDist := minDist - distance
      { x := acc.x + dx / distance * pushDist,
        z := acc.z + dz / distance * pushDist,
        collision := true }
    else acc

theorem checkObjectCollision_eq_foldl (sqrtF : ℚ → ℚ) (objs : List Obstacle)
    (px pz : ℚ) :
    checkObjectCollision sqrtF objs px pz =
      objs.foldl (objAccum sqrtF px pz) { x := px, z := pz, collision := false } := rfl

theorem objAccum_eq (sqrtF : ℚ → ℚ) (px pz : ℚ) (acc : ResolveResult) (o : Obstacle) :
    objAccum sqrtF px pz acc o =
      { x := acc.x + (obstaclePush sqrtF px pz o).1,
        z := acc.z + (obstaclePush sqrtF px pz o).2.1,
        collision := acc.collision || (obstaclePush sqrtF px pz o).2.2 } := by
  simp only [objAccum, obstaclePush, dist2, influenceRadius]
  split_ifs with h1 h2
  · cases acc; simp
  · cases acc; simp
  · cases acc; simp

theorem foldl_objAccum (sqrtF : ℚ → ℚ) (px pz : ℚ) :
    ∀ (l : List Obstacle) (ax az : ℚ) (c : Bool),
      l.foldl (objAccum sqrtF px pz) { x := ax, z := az, collision := c } =
        { x := ax + (l.map fun o => (obstaclePush sqrtF px pz o).1).sum,
          z := az + (l.map fun o => (obstaclePush sqrtF px pz o).2.1).sum,
          collision := c || l.any fun o => (obstaclePush sqrtF px pz o).2.2 } := by
  intro l
  induction l with
  | nil => intro ax az c; simp
  | cons o l ih =>
    intro ax az c
    rw [List.foldl_cons, objAccum_eq, ih]
    simp [add_assoc, Bool.or_assoc]

/-- The object-collision pass returns the proposed point plus the sum of
the per-obstacle contributions, with the flag set when any obstacle
pushed. -/
theorem checkObjectCollision_chars (sqrtF : ℚ → ℚ) (objs : List Obstacle) (px pz : ℚ) :
    checkObjectCollision sqrtF objs px pz =
      { x := px + (objs.map fun o => (obstaclePush sqrtF px pz o).1).sum,
        z := pz + (objs.map fun o => (obstaclePush sqrtF px pz o).2.1).sum,
        collision := objs.any fun o => (obstaclePush sqrtF px pz o).2.2 } := by
  rw [checkObjectCollision_eq_foldl, foldl_objAccum]
  simp

theorem obstaclePush_false (sqrtF : ℚ → ℚ) (px pz : ℚ) (o : Obstacle)
    (h : (obstaclePush sqrtF px pz o).2.2 = false) :
    obstaclePush sqrtF px pz o = (0, 0, false) := by
  simp only [obstaclePush] at h ⊢
  split_ifs at h ⊢
  · rfl
  · rfl

theorem obstaclePush_true (sqrtF : ℚ → ℚ) (px pz : ℚ) (o : Obstacle)
    (h : (obstaclePush sqrtF px pz o).2.2 = true) :
    ¬ o.kind = "wall" ∧
    sqrtF (dist2 px pz o.x o.z) < influenceRadius o ∧
    0.001 < sqrtF (dist2 px pz o.x o.z) ∧
    obstaclePush sqrtF px pz o =
      ((px - o.x) / sqrtF (dist2 px pz o.x o.z) *
          (influenceRadius o - sqrtF (dist2 px pz o.x o.z)),
       (pz - o.z) / sqrtF (dist2 px pz o.x o.z) *
          (influenceRadius o - sqrtF (dist2 px pz o.x o.z)), true) := by
  simp only [obstaclePush] at h ⊢
  split_ifs at h ⊢ with h1 h2
  exact ⟨h1, h2.1, h2.2, rfl⟩

theorem obstaclePush_skip (sqrtF : ℚ → ℚ) (px pz : ℚ) (o : Obstacle)
    (h : o.kind = "wall" ∨ influenceRadius o ≤ sqrtF (dist2 px pz o.x o.z)) :
    obstaclePush sqrtF px pz o = (0, 0, false) := by
  simp only [obstaclePush]
  rcases h with h | h
  · rw [if_pos h]
  · split_ifs with h1 h2
    · rfl
    · exact absurd h2.1 (not_lt.mpr h)
    · rfl

/-- When no obstacle pushes the point, the object pass is the identity. -/
theorem noPush_point (sqrtF : ℚ → ℚ) (objs : List Obstacle) (wx wz : ℚ)
    (h : ∀ o ∈ objs, obstaclePush sqrtF wx wz o = (0, 0, false)) :
    checkObjectCollision sqrtF objs wx wz = { x := wx, z := wz, collision := false } := by
  rw [checkObjectCollision_chars]
  have hx : (objs.map fun o => (obstaclePush sqrtF wx wz o).1).sum = 0 := by
    apply List.sum_eq_zero
    intro q hq
    obtain ⟨o, ho, rfl⟩ := List.mem_map.mp hq
    rw [h o ho]
  have hz : (objs.map fun o => (obstaclePush sqrtF wx wz o).2.1).sum = 0 := by
    apply List.sum_eq_zero
    intro q hq
    obtain ⟨o, ho, rfl⟩ := List.mem_map.mp hq
    rw [h o ho]
  have hc : (objs.any fun o => (obstaclePush sqrtF wx wz o).2.2) = false := by
    by_contra hcc
    rw [Bool.not_eq_false, List.any_eq_true] at hcc
    obtain ⟨o, ho, hpo⟩ := hcc
    rw [h o ho] at hpo
    simp at hpo
  rw [hx, hz, hc]
  simp

set_option maxHeartbeats 1000000 in
/-- If the centers of a and b are at squared distance at least
(m + m')^2 and q is at exact squared distance m^2 from a, then q is at
squared distance at least m'^2 from b (so q is outside b's open disk of
radius m'): the reverse triangle inequality, carried out on squared
rational distances via the Lagrange identity. -/
theorem sep_apart (ax az bx bz qx qz m m' : ℚ) (hm : 0 ≤ m) (hm' : 0 ≤ m')
    (hsep : (m + m') * (m + m') ≤ dist2 ax az bx bz)
    (hq : dist2 qx qz ax az = m * m) :
    m' * m' ≤ dist2 qx qz bx bz := by
  simp only [dist2] at hsep hq ⊢
  obtain ⟨ux, hux⟩ : ∃ r, bx - ax = r := ⟨_, rfl⟩
  obtain ⟨uz, huz⟩ : ∃ r, bz - az = r := ⟨_, rfl⟩
  obtain ⟨vx, hvx⟩ : ∃ r, qx - ax = r := ⟨_, rfl⟩
  obtain ⟨vz, hvz⟩ : ∃ r, qz - az = r := ⟨_, rfl⟩
  have hqb_x : qx - bx = vx - ux := by rw [← hvx, ← hux]; ring
  have hqb_z : qz - bz = vz - uz := by rw [← hvz, ← huz]; ring
  have hab_x : ax - bx = -ux := by rw [← hux]; ring
  have hab_z : az - bz = -uz := by rw [← huz]; ring
  rw [hab_x, hab_z] at hsep
  rw [hvx, hvz] at hq
  rw [hqb_x, hqb_z]
  have hgoal_eq : (vx - ux) * (vx - ux) + (vz - uz) * (vz - uz) =
      (vx * vx + vz * vz) + (ux * ux + uz * uz) - 2 * (ux * vx + uz * vz) := by ring
  rw [hgoal_eq, hq]
  have hsep' : (m + m') * (m + m') ≤ ux * ux + uz * uz := by nlinarith [hsep]
  obtain ⟨S, hS⟩ : ∃ r, ux * ux + uz * uz = r := ⟨_, rfl⟩
  obtain ⟨t, ht⟩ : ∃ r, ux * vx + uz * vz = r := ⟨_, rfl⟩
  rw [hS] at hsep'
  rw [hS, ht]
  have hLag : t ^ 2 ≤ S * (m * m) := by
    rw [← hS, ← ht]
    nlinarith [sq_nonneg (ux * vz - uz * vx), hq]
  have hA : 0 ≤ S + m * m - m' * m' := by nlinarith [mul_nonneg hm hm']
  have hfac : 0 ≤ (S - (m + m') * (m + m')) * (S - (m - m') * (m - m')) := by
    apply mul_nonneg
    · linarith
    · nlinarith [mul_nonneg hm hm']
  have h4 : (2 * t) ^ 2 ≤ (S + m * m - m' * m') ^ 2 := by linarith [hLag, hfac]
  have h2t : 2 * t ≤ S + m * m - m' * m' := by nlinarith [h4, hA]
  linarith [h2t]

set_option maxHeartbeats 1000000 in
/-- A point cannot be strictly inside two influence disks whose centers
are at least the sum of the radii apart: the triangle inequality, again
on squared rational distances. -/
theorem sep_unique (ax az bx bz px pz m m' d d' : ℚ)
    (hd : 0 ≤ d) (hd' : 0 ≤ d')
    (hsep : (m + m') * (m + m') ≤ dist2 ax az bx bz)
    (hda : d * d = dist2 px pz ax az) (hdb : d' * d' = dist2 px pz bx bz)
    (h1 : d < m) (h2 : d' < m') : False := by
  simp only [dist2] at hsep hda hdb
  obtain ⟨wx, hwx⟩ : ∃ r, px - ax = r := ⟨_, rfl⟩
  obtain ⟨wz, hwz⟩ : ∃ r, pz - az = r := ⟨_, rfl⟩
  obtain ⟨yx, hyx⟩ : ∃ r, px - bx = r := ⟨_, rfl⟩
  obtain ⟨yz, hyz⟩ : ∃ r, pz - bz = r := ⟨_, rfl⟩
  have hab_x : ax - bx = yx - wx := by rw [← hwx, ← hyx]; ring
  have hab_z : az - bz = yz - wz := by rw [← hwz, ← hyz]; ring
  rw [hab_x, hab_z] at hsep
  rw [hwx, hwz] at hda
  rw [hyx, hyz] at hdb
  have hssum : (yx - wx) * (yx - wx) + (yz - wz) * (yz - wz) =
      (d * d) + (d' * d') - 2 * (wx * yx + wz * yz) := by
    rw [hda, hdb]; ring
  rw [hssum] at hsep
  obtain ⟨t, ht⟩ : ∃ r, wx * yx + wz * yz = r := ⟨_, rfl⟩
  rw [ht] at hsep
  have hLag : t ^ 2 ≤ (d * d) * (d' * d') := by
    rw [← ht]
    nlinarith [sq_nonneg (wx * yz - wz * yx), hda, hdb]
  have hip : -(d * d') ≤ t := by nlinarith [hLag, mul_nonneg hd hd']
  nlinarith [hip, hsep, mul_nonneg hd hd']

/-- With pairwise-disjoint influence disks at most one obstacle pushes
any given point: either no obstacle contributes, or exactly one does and
the offset sums collapse to its single contribution. -/
theorem pushSum_cases (sqrtF : ℚ → ℚ) (px pz : ℚ) :
    ∀ l : List Obstacle, l.Pairwise sepRel →
      (∀ o ∈ l, ¬ o.kind = "wall" →
        sqrtF (dist2 px pz o.x o.z) * sqrtF (dist2 px pz o.x o.z) = dist2 px pz o.x o.z ∧
        0 ≤ sqrtF (dist2 px pz o.x o.z)) →
      (∀ o ∈ l, obstaclePush sqrtF px pz o = (0, 0, false)) ∨
      (∃ o ∈ l, (obstaclePush sqrtF px pz o).2.2 = true ∧
        (l.map fun o' => (obstaclePush sqrtF px pz o').1).sum =
          (obstaclePush sqrtF px pz o).1 ∧
        (l.map fun o' => (obstaclePush sqrtF px pz o').2.1).sum =
          (obstaclePush sqrtF px pz o).2.1 ∧
        (l.any fun o' => (obstaclePush sqrtF px pz o').2.2) = true) := by
  intro l
  induction l with
  | nil =>
    intro _ _
    left
    intro o ho
    exact absurd ho (List.not_mem_nil o)
  | cons a l ih =>
    intro hpair hsq
    obtain ⟨hhead, htail⟩ := List.pairwise_cons.mp hpair
    have hsqa := hsq a (List.mem_cons_self a l)
    have hsql : ∀ o ∈ l, ¬ o.kind = "wall" →
        sqrtF (dist2 px pz o.x o.z) * sqrtF (dist2 px pz o.x o.z) = dist2 px pz o.x o.z ∧
        0 ≤ sqrtF (dist2 px pz o.x o.z) :=
      fun o ho => hsq o (List.mem_cons_of_mem a ho)
    by_cases hfa : (obstaclePush sqrtF px pz a).2.2 = true
    · right
      obtain ⟨hka, hlta, hgta, -⟩ := obstaclePush_true sqrtF px pz a hfa
      have hzl : ∀ o' ∈ l, obstaclePush sqrtF px pz o' = (0, 0, false) := by
        intro o' ho'
        by_cases hf' : (obstaclePush sqrtF px pz o').2.2 = true
        · exfalso
          obtain ⟨hk', hlt', hgt', -⟩ := obstaclePush_true sqrtF px pz o' hf'
          obtain ⟨hexa, hnna⟩ := hsqa hka
          obtain ⟨hex', hnn'⟩ := hsql o' ho' hk'
          exact sep_unique a.x a.z o'.x o'.z px pz (influenceRadius a)
            (influenceRadius o') (sqrtF (dist2 px pz a.x a.z))
            (sqrtF (dist2 px pz o'.x o'.z)) hnna hnn'
            (hhead o' ho' hka hk') hexa hex' hlta hlt'
        · rw [Bool.not_eq_true] at hf'
          exact obstaclePush_false sqrtF px pz o' hf'
      have hsum1 : (l.map fun o' => (obstaclePush sqrtF px pz o').1).sum = 0 := by
        apply List.sum_eq_zero
        intro q hq
        obtain ⟨o', ho', rfl⟩ := List.mem_map.mp hq
        rw [hzl o' ho']
      have hsum2 : (l.map fun o' => (obstaclePush sqrtF px pz o').2.1).sum = 0 := by
        apply List.sum_eq_zero
        intro q hq
        obtain ⟨o', ho', rfl⟩ := List.mem_map.mp hq
        rw [hzl o' ho']
      refine ⟨a, List.mem_cons_self a l, hfa, ?_, ?_, ?_⟩
      · rw [List.map_cons, List.sum_cons, hsum1, add_zero]
      · rw [List.map_cons, List.sum_cons, hsum2, add_zero]
      · rw [List.any_cons, hfa, Bool.true_or]
    · rw [Bool.not_eq_true] at hfa
      have ha0 := obstaclePush_false sqrtF px pz a hfa
      rcases ih htail hsql with hnone | ⟨o, ho, hfo, hsx, hsz, hany⟩
      · left
        intro o' ho'
        rcases List.mem_cons.mp ho' with rfl | ho''
        · exact ha0
        · exact hnone o' ho''
      · right
        refine ⟨o, List.mem_cons_of_mem a ho, hfo, ?_, ?_, ?_⟩
        · rw [List.map_cons, List.sum_cons, ha0, hsx]
          simp
        · rw [List.map_cons, List.sum_cons, ha0, hsz]
          simp
        · rw [List.any_cons, ha0, hany]
          simp

set_option maxHeartbeats 1000000 in
/-- C3 as amended.  The resolver is idempotent on any obstacle registry
whose non-wall entries are circles with nonnegative radii, pairwise
separated by at least the sum of their influence radii (disjoint
influence disks), each influence disk lying strictly inside the
wall-clamp box: applying the resolver to its own output yields the same
resolved point.  Disjoint disks mean at most one obstacle pushes any
given point; the pushed point lands exactly on that obstacle's influence
circle, strictly inside the box and outside every other influence disk,
so the second pass moves nothing.  The counterexample shows the claim
fails without the strictly-inside-the-box condition: the wall clamp can
move a first-pass output back into an influence region.  sqrtF is
assumed exact at the proposed point's squared distances and bounded
below by each influence radius at or beyond its square (both true of
the real square root). -/
theorem C3_idempotent_amended (sqrtF : ℚ → ℚ) (objs : List Obstacle) (px pz : ℚ)
    (hrad : ∀ o ∈ objs, 0 ≤ o.radius)
    (hmono : ∀ o ∈ objs, ¬ o.kind = "wall" → ∀ q : ℚ,
        influenceRadius o * influenceRadius o ≤ q → influenceRadius o ≤ sqrtF q)
    (hsq : ∀ o ∈ objs, ¬ o.kind = "wall" →
        sqrtF (dist2 px pz o.x o.z) * sqrtF (dist2 px pz o.x o.z) = dist2 px pz o.x o.z ∧
        0 ≤ sqrtF (dist2 px pz o.x o.z))
    (hgeom : ∀ o ∈ objs, ¬ o.kind = "wall" → ∀ wx wz : ℚ,
        dist2 wx wz o.x o.z ≤ influenceRadius o * influenceRadius o →
        -(42/5) < wx ∧ wx < 42/5 ∧ -(42/5) < wz ∧ wz < 10)
    (hsep : objs.Pairwise sepRel) :
    (resolveCollisions sqrtF objs
        (resolveCollisions sqrtF objs px pz).x
        (resolveCollisions sqrtF objs px pz).z).x
      = (resolveCollisions sqrtF objs px pz).x ∧
    (resolveCollisions sqrtF objs
        (resolveCollisions sqrtF objs px pz).x
        (resolveCollisions sqrtF objs px pz).z).z
      = (resolveCollisions sqrtF objs px pz).z := by
  rcases pushSum_cases sqrtF px pz objs hsep hsq with hnone | ⟨o, ho, hfo, hsx, hsz, hany⟩
  · -- no obstacle pushes the proposed point
    have hobj1 := noPush_point sqrtF objs px pz hnone
    have hr1x : (resolveCollisions sqrtF objs px pz).x = (checkWallCollision px pz).x := by
      rw [resolve_x, hobj1]
    have hr1z : (resolveCollisions sqrtF objs px pz).z = (checkWallCollision px pz).z := by
      rw [resolve_z, hobj1]
    by_cases hWid : checkWallCollision px pz = { x := px, z := pz }
    · rw [hr1x, hr1z, hWid]
      dsimp only
      rw [resolve_x, resolve_z, hobj1]
      dsimp only
      rw [hWid]
      exact ⟨rfl, rfl⟩
    · -- the clamp moved the point onto the box boundary, which no
      -- influence disk can reach
      have hfar : ∀ o' ∈ objs, ¬ o'.kind = "wall" →
          influenceRadius o' * influenceRadius o' <
            dist2 (checkWallCollision px pz).x (checkWallCollision px pz).z o'.x o'.z := by
        intro o' ho' hk'
        by_contra hc
        push_neg at hc
        obtain ⟨b1, b2, b3, b4⟩ := hgeom o' ho' hk' _ _ hc
        have hne : (checkWallCollision px pz).x ≠ px ∨ (checkWallCollision px pz).z ≠ pz := by
          by_contra h
          push_neg at h
          exact hWid (wallResult_ext _ _ h.1 h.2)
        rcases hne with hx | hz
        · rw [wallClamp_x] at hx b1 b2
          rcases clamp_boundary _ _ _ hx with he | he <;> rw [he] at b1 b2
          · rw [wall_lo] at b1
            exact absurd rfl (ne_of_gt b1)
          · rw [wall_hi] at b2
            exact absurd rfl (ne_of_gt b2)
        · rw [wallClamp_z] at hz b3 b4
          rcases clamp_boundary _ _ _ hz with he | he <;> rw [he] at b3 b4
          · rw [wall_lo] at b3
            exact absurd rfl (ne_of_gt b3)
          · exact absurd b4 (lt_irrefl _)
      have hskip2 : ∀ o' ∈ objs,
          obstaclePush sqrtF (checkWallCollision px pz).x (checkWallCollision px pz).z o'
            = (0, 0, false) := by
        intro o' ho'
        by_cases hk' : o'.kind = "wall"
        · exact obstaclePush_skip _ _ _ _ (Or.inl hk')
        · exact obstaclePush_skip _ _ _ _
            (Or.inr (hmono o' ho' hk' _ (le_of_lt (hfar o' ho' hk'))))
      have hobj2 := noPush_point sqrtF objs _ _ hskip2
      rw [hr1x, hr1z, resolve_x, resolve_z, hobj2]
      dsimp only
      rw [wallClamp_again]
      exact ⟨rfl, rfl⟩
  · -- exactly one obstacle pushes; the pushed point lands on its
    -- influence circle, strictly inside the box and outside every other
    -- influence disk
    obtain ⟨hko, hlto, hgto, hEqo⟩ := obstaclePush_true sqrtF px pz o hfo
    have hobj1 : checkObjectCollision sqrtF objs px pz =
        { x := px + (px - o.x) / sqrtF (dist2 px pz o.x o.z) *
              (influenceRadius o - sqrtF (dist2 px pz o.x o.z)),
          z := pz + (pz - o.z) / sqrtF (dist2 px pz o.x o.z) *
              (influenceRadius o - sqrtF (dist2 px pz o.x o.z)),
          collision := true } := by
      rw [checkObjectCollision_chars, hsx, hsz, hany, hEqo]
    obtain ⟨d, hd⟩ : ∃ d, sqrtF (dist2 px pz o.x o.z) = d := ⟨_, rfl⟩
    obtain ⟨m, hm⟩ : ∃ m, influenceRadius o = m := ⟨_, rfl⟩
    rw [hd] at hobj1 hlto hgto
    rw [hm] at hobj1 hlto
    have hm0 : 0 ≤ m := by
      rw [← hm]
      exact influenceRadius_nonneg o (hrad o ho)
    have hsqo := (hsq o ho hko).1
    rw [hd] at hsqo
    rw [dist2] at hsqo
    have hd0 : d ≠ 0 :=
      (ne_of_gt (lt_trans (by norm_num) hgto))
    have hdist1 : dist2 (px + (px - o.x) / d * (m - d))
        (pz + (pz - o.z) / d * (m - d)) o.x o.z = m * m :=
      pushed_dist2 o.x o.z px pz d m hd0 hsqo
    obtain ⟨b1, b2, b3, b4⟩ := hgeom o ho hko _ _ (by rw [hm]; exact le_of_eq hdist1)
    have hw1 : checkWallCollision (px + (px - o.x) / d * (m - d))
        (pz + (pz - o.z) / d * (m - d)) =
        { x := px + (px - o.x) / d * (m - d), z := pz + (pz - o.z) / d * (m - d) } :=
      wallClamp_id _ _ (le_of_lt b1) (le_of_lt b2) (le_of_lt b3) (le_of_lt b4)
    have hr1x : (resolveCollisions sqrtF objs px pz).x =
        px + (px - o.x) / d * (m - d) := by
      rw [resolve_x, hobj1]
      dsimp only
      rw [hw1]
    have hr1z : (resolveCollisions sqrtF objs px pz).z =
        pz + (pz - o.z) / d * (m - d) := by
      rw [resolve_z, hobj1]
      dsimp only
      rw [hw1]
    have hskip2 : ∀ o' ∈ objs,
        obstaclePush sqrtF (px + (px - o.x) / d * (m - d))
          (pz + (pz - o.z) / d * (m - d)) o' = (0, 0, false) := by
      intro o' ho'
      by_cases hk' : o'.kind = "wall"
      · exact obstaclePush_skip _ _ _ _ (Or.inl hk')
      · refine obstaclePush_skip _ _ _ _ (Or.inr (hmono o' ho' hk' _ ?_))
        by_cases hv : o' = o
        · subst hv
          rw [hm, hdist1]
        · have hR : sepRel o o' :=
            hsep.forall sepRel_symm ho ho' (fun he => hv he.symm)
          have hs' := hR hko hk'
          rw [hm] at hs'
          exact sep_apart o.x o.z o'.x o'.z _ _ m (influenceRadius o') hm0
            (influenceRadius_nonneg o' (hrad o' ho')) hs' hdist1
    have hobj2 := noPush_point sqrtF objs _ _ hskip2
    rw [hr1x, hr1z, resolve_x, resolve_z, hobj2]
    dsimp only
    rw [hw1]
    exact ⟨rfl, rfl⟩

/-- The registry of the amended-C3 witness: two circular obstacles of
radius 0.5 at (0,0) and (4,0); their influence disks of radius 1.1 are
disjoint (centers 4 apart) and lie strictly inside the arena box. -/
def obsC3W : List Obstacle :=
  [{ kind := "prop", x := 0, z := 0, radius := 1/2 },
   { kind := "prop", x := 4, z := 0, radius := 1/2 }]

/-- An interpretation of Math.sqrt for the C3 amended witness: the true
square root at 0.09 and 13.69 (the squared distances from the proposed
point to the two obstacle centers) and a sound lower bound at or beyond
1.21. -/
def sqrtC3a : ℚ → ℚ :=
  fun q => if q = 9/100 then 3/10 else if q = 1369/100 then 37/10
    else if 121/100 ≤ q then 11/10 else 0

/-- Witness for the amended C3: two obstacles of radius 0.5 at (0,0) and
(4,0) with disjoint influence disks, and the proposed point (0.3, 0),
which is pushed by the first obstacle to (1.1, 0) and then left alone by
the second pass. -/
theorem C3_amended_witness :
    (∀ o ∈ obsC3W, 0 ≤ o.radius) ∧
    (∀ o ∈ obsC3W, ¬ o.kind = "wall" → ∀ q : ℚ,
        influenceRadius o * influenceRadius o ≤ q → influenceRadius o ≤ sqrtC3a q) ∧
    (∀ o ∈ obsC3W, ¬ o.kind = "wall" →
        sqrtC3a (dist2 (3/10) 0 o.x o.z) * sqrtC3a (dist2 (3/10) 0 o.x o.z) =
          dist2 (3/10) 0 o.x o.z ∧ 0 ≤ sqrtC3a (dist2 (3/10) 0 o.x o.z)) ∧
    (∀ o ∈ obsC3W, ¬ o.kind = "wall" → ∀ wx wz : ℚ,
        dist2 wx wz o.x o.z ≤ influenceRadius o * influenceRadius o →
        -(42/5) < wx ∧ wx < 42/5 ∧ -(42/5) < wz ∧ wz < 10) ∧
    obsC3W.Pairwise sepRel ∧
    ((resolveCollisions sqrtC3a obsC3W
        (resolveCollisions sqrtC3a obsC3W (3/10) 0).x
        (resolveCollisions sqrtC3a obsC3W (3/10) 0).z).x
      = (resolveCollisions sqrtC3a obsC3W (3/10) 0).x ∧
     (resolveCollisions sqrtC3a obsC3W
        (resolveCollisions sqrtC3a obsC3W (3/10) 0).x
        (resolveCollisions sqrtC3a obsC3W (3/10) 0).z).z
      = (resolveCollisions sqrtC3a obsC3W (3/10) 0).z) := by
  have hrad : ∀ o ∈ obsC3W, 0 ≤ o.radius := by
    intro o ho
    simp only [obsC3W, List.mem_cons, List.not_mem_nil, or_false] at ho
    rcases ho with rfl | rfl <;> norm_num
  have hmono : ∀ o ∈ obsC3W, ¬ o.kind = "wall" → ∀ q : ℚ,
      influenceRadius o * influenceRadius o ≤ q → influenceRadius o ≤ sqrtC3a q := by
    intro o ho hk q hq
    simp only [obsC3W, List.mem_cons, List.not_mem_nil, or_false] at ho
    rcases ho with rfl | rfl <;>
    · norm_num [influenceRadius, ROBOT_RADIUS, COLLISION_PADDING] at hq ⊢
      rw [sqrtC3a]
      rw [if_neg (by intro h; rw [h] at hq; norm_num at hq)]
      by_cases h2 : q = 1369/100
      · rw [if_pos h2]
        norm_num
      · rw [if_neg h2, if_pos hq]
  have hsq : ∀ o ∈ obsC3W, ¬ o.kind = "wall" →
      sqrtC3a (dist2 (3/10) 0 o.x o.z) * sqrtC3a (dist2 (3/10) 0 o.x o.z) =
        dist2 (3/10) 0 o.x o.z ∧ 0 ≤ sqrtC3a (dist2 (3/10) 0 o.x o.z) := by
    intro o ho hk
    simp only [obsC3W, List.mem_cons, List.not_mem_nil, or_false] at ho
    rcases ho with rfl | rfl <;> norm_num [sqrtC3a, dist2]
  have hgeom : ∀ o ∈ obsC3W, ¬ o.kind = "wall" → ∀ wx wz : ℚ,
      dist2 wx wz o.x o.z ≤ influenceRadius o * influenceRadius o →
      -(42/5) < wx ∧ wx < 42/5 ∧ -(42/5) < wz ∧ wz < 10 := by
    intro o ho hk wx wz h
    simp only [obsC3W, List.mem_cons, List.not_mem_nil, or_false] at ho
    rcases ho with rfl | rfl <;>
      norm_num [dist2, influenceRadius, ROBOT_RADIUS, COLLISION_PADDING] at h
    · exact ⟨by nlinarith [sq_nonneg wz], by nlinarith [sq_nonneg wz],
        by nlinarith [sq_nonneg wx], by nlinarith [sq_nonneg wx]⟩
    · exact ⟨by nlinarith [sq_nonneg wz], by nlinarith [sq_nonneg wz],
        by nlinarith [sq_nonneg (wx - 4)], by nlinarith [sq_nonneg (wx - 4)]⟩
  have hpair : obsC3W.Pairwise sepRel := by
    rw [obsC3W]
    refine List.Pairwise.cons ?_ (List.Pairwise.cons ?_ List.Pairwise.nil)
    · intro o' ho'
      simp only [List.mem_cons, List.not_mem_nil, or_false] at ho'
      subst ho'
      intro hk hk'
      norm_num [influenceRadius, ROBOT_RADIUS, COLLISION_PADDING, dist2]
    · intro o' ho'
      exact absurd ho' (List.not_mem_nil o')
  exact ⟨hrad, hmono, hsq, hgeom, hpair,
    C3_idempotent_amended sqrtC3a obsC3W (3/10) 0 hrad hmono hsq hgeom hpair⟩

/-- The input state with only the backward flag set. -/
def backInput : InputState := { noInput with backward := true }

theorem emptyObjectPass (sqrtF : ℚ → ℚ) (px pz : ℚ) :
    checkObjectCollision sqrtF [] px pz = { x := px, z := pz, collision := false } := rfl

theorem resolveFree (sqrtF : ℚ → ℚ) (px pz : ℚ)
    (hx1 : -(42/5) ≤ px) (hx2 : px ≤ 42/5) (hz1 : -(42/5) ≤ pz) (hz2 : pz ≤ 10) :
    resolveCollisions sqrtF [] px pz = { x := px, z := pz, collision := false } := by
  simp only [resolveCollisions, emptyObjectPass, wallClamp_id px pz hx1 hx2 hz1 hz2]
  simp

/-- C10 counterexample.  With the backward flag set, velocity 1.4
(forward, above 0.6 * maxSpeed = 1.32) and dt = 0.1, one integrator step
leaves velocity at 1.4 - deceleration * dt = 0.9; it neither snaps to
-1.32 nor even changes sign, because the post-deceleration magnitude no
longer exceeds the target magnitude. -/
theorem C10_counterexample :
    0 < (1/10 : ℚ) ∧ (1/10 : ℚ) ≤ 1/10 ∧ 33/25 < (7/5 : ℚ) ∧
    (integratorStep zeroFun oneFun zeroFun [] backInput (1/10)
        { zeroState with velocity := 7/5 }).velocity = 9/10 ∧
    (9/10 : ℚ) ≠ -(33/25) := by
  refine ⟨by norm_num, le_refl _, by norm_num, ?_, by norm_num⟩
  norm_num [integratorStep, updateMovement, stepVelocity, stepAngular, stepHeadVel,
    targetVel, qsign, qmin, qmax, qabs, resolveCollisions, checkObjectCollision,
    checkWallCollision, backInput, noInput, zeroState, zeroFun, oneFun,
    PHYSICS.maxSpeed, PHYSICS.deceleration, PHYSICS.acceleration, PHYSICS.friction,
    PHYSICS.maxTurnSpeed, PHYSICS.turnFriction, PHYSICS.headFriction,
    ROBOT_RADIUS, COLLISION_PADDING]

/-- C10 as amended.  The snap-to-target rule is as the claim's first
sentence states it: whenever the post-acceleration velocity magnitude
exceeds the target magnitude the velocity is set to the target exactly.
The backward-flag instance therefore requires the starting velocity to
exceed 1.32 + deceleration * dt (not merely 1.32): then one step in free
space snaps velocity discontinuously to exactly -1.32, a change larger
than acceleration * dt. -/
theorem C10_snap_amended (dt v : ℚ) (hdt0 : 0 < dt) (hdt1 : dt ≤ 1/10)
    (hv : 33/25 + 5 * dt < v) :
    (integratorStep zeroFun oneFun zeroFun [] backInput dt
        { zeroState with velocity := v }).velocity = -(33/25) ∧
    PHYSICS.acceleration * dt <
      |(integratorStep zeroFun oneFun zeroFun [] backInput dt
          { zeroState with velocity := v }).velocity - v| := by
  have hδ : qmin dt (0.1 : ℚ) = dt := by
    rw [qmin_eq]
    exact min_eq_left (hdt1.trans (by norm_num))
  have hdec : PHYSICS.deceleration = 5 := by norm_num [PHYSICS.deceleration]
  have hv1 : stepVelocity backInput dt v = -(33/25) := by
    have htv : targetVel backInput = -(33/25) := by
      norm_num [targetVel, backInput, noInput, PHYSICS.maxSpeed]
    simp only [stepVelocity, htv, hdec, qsign, qabs]
    rw [if_pos (show (-(33/25) : ℚ) ≠ 0 by norm_num)]
    rw [if_neg (show ¬(v < -(33/25)) by linarith)]
    rw [if_neg (show ¬((0:ℚ) < -(33/25) - v) by linarith)]
    rw [if_pos (show -(33/25) - v < 0 by linarith)]
    rw [if_pos (show (-(33/25) : ℚ) < 0 by norm_num)]
    rw [if_neg (show ¬(v + -1 * 5 * dt < 0) by linarith)]
    rw [if_pos (show -(-(33/25) : ℚ) < v + -1 * 5 * dt by linarith)]
  have hmain : (integratorStep zeroFun oneFun zeroFun [] backInput dt
      { zeroState with velocity := v }).velocity = -(33/25) := by
    simp only [integratorStep, updateMovement, zeroState, zeroFun, oneFun, hδ]
    rw [hv1]
    rw [show (0:ℚ) + 0 * (-(33/25) * dt) = 0 by ring,
      show (0:ℚ) + 1 * (-(33/25) * dt) = -(33/25) * dt by ring]
    rw [resolveFree zeroFun 0 (-(33/25) * dt) (by norm_num) (by norm_num)
      (by nlinarith) (by nlinarith)]
    simp
  refine ⟨hmain, ?_⟩
  rw [hmain, abs_of_neg (show -(33/25) - v < 0 by linarith)]
  have hacc : PHYSICS.acceleration = 4 := by norm_num [PHYSICS.acceleration]
  rw [hacc]
  linarith

/-- Witness for the amended C10 at dt = 0.1 and starting velocity 2.2. -/
theorem C10_amended_witness :
    0 < (1/10 : ℚ) ∧ (1/10 : ℚ) ≤ 1/10 ∧ 33/25 + 5 * (1/10) < (22/10 : ℚ) ∧
    ((integratorStep zeroFun oneFun zeroFun [] backInput (1/10)
        { zeroState with velocity := 22/10 }).velocity = -(33/25) ∧
     PHYSICS.acceleration * (1/10) <
      |(integratorStep zeroFun oneFun zeroFun [] backInput (1/10)
          { zeroState with velocity := 22/10 }).velocity - 22/10|) := by
  refine ⟨by norm_num, le_refl _, by norm_num, ?_⟩
  exact C10_snap_amended (1/10) (22/10) (by norm_num) (le_refl _) (by norm_num)

/-- A dust particle, RobotScene.tsx lines 1885-1894: position, velocity,
mesh size, age and maximum age. -/
structure DustParticle where
  px : ℚ
  py : ℚ
  pz : ℚ
  vx : ℚ
  vy : ℚ
  vz : ℚ
  size : ℚ
  life : ℚ
  maxLife : ℚ
deriving DecidableEq

/-- spawnDustParticle, RobotScene.tsx lines 1871-1895: a no-op at the
hard cap of 50 particles, otherwise appends one particle whose size,
velocity jitter and maximum age come from the Math.random draws, passed
here as explicit arguments rSize, rvx, rvy, rvz, rLife. -/
def spawnDustParticle (x y z velocityX velocityZ rSize rvx rvy rvz rLife : ℚ)
    (dustParticles : List DustParticle) : List DustParticle :=
  if 50 ≤ dustParticles.length then dustParticles
  else
    dustParticles ++
      [{ px := x, py := y, pz := z,
         vx := velocityX + (rvx - 0.5) * 0.3,
         vy := 0.2 + rvy * 0.3,
         vz := velocityZ + (rvz - 0.5) * 0.3,
         size := 0.03 + rSize * 0.04,
         life := 0, maxLife := 0.8 + rLife * 0.4 }]

/-- The per-particle advance of updateDustParticles, RobotScene.tsx
lines 1922-1932: age by delta, advect by the current velocity, then
apply gravity to vy and the 0.98 drag to all components. -/
def stepDustParticle (delta : ℚ) (p : DustParticle) : DustParticle :=
  { p with
    life := p.life + delta,
    px := p.px + p.vx * delta, py := p.py + p.vy * delta, pz := p.pz + p.vz * delta,
    vx := p.vx * 0.98, vy := (p.vy - 0.5 * delta) * 0.98, vz := p.vz * 0.98 }

/-- updateDustParticles, RobotScene.tsx lines 1898-1941: a probabilistic
spawn from one of the two wheel contact points when speed exceeds 0.5
(the Math.random draws are the explicit arguments rSpawn and rSide),
then every particle is advanced and the expired ones are removed.  The
backward in-place splice of the source preserves order, so removal is
a filter. -/
def updateDustParticles (sinF cosF : ℚ → ℚ) (delta : ℚ) (s : KinState)
    (rSpawn rSide rSize rvx rvy rvz rLife : ℚ)
    (dustParticles : List DustParticle) : List DustParticle :=
  let speed := qabs s.velocity
  let ps1 :=
    if 0.5 < speed ∧ rSpawn < speed * 0.3 then
      let wheelOffsetX := (0.55 : ℚ)
      let wheelZ := cosF s.rotation * (-0.1)
      let wheelX := sinF s.rotation * (-0.1)
      let leftWheelX := s.x - cosF s.rotation * wheelOffsetX + wheelX
      let leftWheelZ := s.z + sinF s.rotation * wheelOffsetX + wheelZ
      let rightWheelX := s.x + cosF s.rotation * wheelOffsetX + wheelX
      let rightWheelZ := s.z - sinF s.rotation * wheelOffsetX + wheelZ
      let backVelX := -(sinF s.rotation) * speed * 0.5
      let backVelZ := -(cosF s.rotation) * speed * 0.5
      if 0.5 < rSide then
        spawnDustParticle leftWheelX 0.1 leftWheelZ backVelX backVelZ
          rSize rvx rvy rvz rLife dustParticles
      else
        spawnDustParticle rightWheelX 0.1 rightWheelZ backVelX backVelZ
          rSize rvx rvy rvz rLife dustParticles
    else dustParticles
  (ps1.map (stepDustParticle delta)).filter (fun p => decide (p.life < p.maxLife))

/-- C7.  The dust-particle collection never exceeds 50 particles: the
spawn operation is a no-op at or above the cap, and a full update step
(spawn attempt, advance, expiry removal) preserves the cap, whatever
the speed and random draws. -/
theorem C7_dust_cap (sinF cosF : ℚ → ℚ) (delta : ℚ) (s : KinState)
    (rSpawn rSide rSize rvx rvy rvz rLife : ℚ) (ps : List DustParticle)
    (hcap : ps.length ≤ 50) :
    (updateDustParticles sinF cosF delta s rSpawn rSide rSize rvx rvy rvz rLife ps).length
      ≤ 50 ∧
    (∀ x y z vX vZ r1 r2 r3 r4 r5 : ℚ, ∀ qs : List DustParticle, 50 ≤ qs.length →
      spawnDustParticle x y z vX vZ r1 r2 r3 r4 r5 qs = qs) := by
  constructor
  · have hspawn : ∀ x y z vX vZ r1 r2 r3 r4 r5 : ℚ,
        (spawnDustParticle x y z vX vZ r1 r2 r3 r4 r5 ps).length ≤ 50 := by
      intro x y z vX vZ r1 r2 r3 r4 r5
      rw [spawnDustParticle]
      split_ifs with h
      · exact hcap
      · rw [List.length_append, List.length_singleton]
        omega
    simp only [updateDustParticles]
    refine le_trans (List.length_filter_le _ _) ?_
    rw [List.length_map]
    split_ifs with h1 h2
    · exact hspawn _ _ _ _ _ _ _ _ _ _
    · exact hspawn _ _ _ _ _ _ _ _ _ _
    · exact hcap
  · intro x y z vX vZ r1 r2 r3 r4 r5 qs hq
    rw [spawnDustParticle, if_pos hq]

/-- Witness for C7 on the empty particle list. -/
theorem C7_witness :
    ([] : List DustParticle).length ≤ 50 ∧
    ((updateDustParticles zeroFun oneFun 0 zeroState 0 0 0 0 0 0 0 []).length ≤ 50 ∧
     (∀ x y z vX vZ r1 r2 r3 r4 r5 : ℚ, ∀ qs : List DustParticle, 50 ≤ qs.length →
       spawnDustParticle x y z vX vZ r1 r2 r3 r4 r5 qs = qs)) :=
  ⟨by norm_num, C7_dust_cap zeroFun oneFun 0 zeroState 0 0 0 0 0 0 0 [] (by norm_num)⟩

/-- renderRobotPOV, RobotScene.tsx lines 1944-2009.  The guard on line
1945 returns immediately when the POV 2D context or its image buffer is
unavailable; the camera aiming, render-to-texture, readback, row flip
and post-processing (the body, lines 1947-2008, operating on externally
held rendering state) are abstracted as the capture argument. -/
def renderRobotPOV (Ctx Img World : Type) (povCtx : Option Ctx)
    (povImageData : Option Img) (capture : Ctx → Img → World → World)
    (w : World) : World :=
  match povCtx, povImageData with
  | some c, some img => capture c img w
  | _, _ => w

/-- renderSecurityCamera, RobotScene.tsx lines 2012-2066, with the same
guard shape on line 2013. -/
def renderSecurityCamera (Ctx Img World : Type) (secCamCtx : Option Ctx)
    (secCamImageData : Option Img) (capture : Ctx → Img → World → World)
    (w : World) : World :=
  match secCamCtx, secCamImageData with
  | some c, some img => capture c img w
  | _, _ => w

/-- C9.  For each camera, when its destination surface or readback
buffer is unavailable the capture routine returns the world unchanged:
render, readback and post-processing are all skipped and nothing is
mutated; the next interval simply retries. -/
theorem C9_capture_skip (Ctx Img World : Type) (povCtx secCamCtx : Option Ctx)
    (povImageData secCamImageData : Option Img)
    (povCapture secCapture : Ctx → Img → World → World) (w : World) :
    (povCtx = none ∨ povImageData = none →
      renderRobotPOV Ctx Img World povCtx povImageData povCapture w = w) ∧
    (secCamCtx = none ∨ secCamImageData = none →
      renderSecurityCamera Ctx Img World secCamCtx secCamImageData secCapture w = w) := by
  constructor
  · rintro (rfl | rfl)
    · cases povImageData <;> rfl
    · cases povCtx <;> rfl
  · rintro (rfl | rfl)
    · cases secCamImageData <;> rfl
    · cases secCamCtx <;> rfl

/-- Witness for C9 with one missing surface per camera. -/
theorem C9_witness :
    (((none : Option Unit) = none ∨ (some () : Option Unit) = none) ∧
     ((some () : Option Unit) = none ∨ (none : Option Unit) = none)) ∧
    renderRobotPOV Unit Unit ℕ none (some ()) (fun _ _ n => n + 1) 7 = 7 ∧
    renderSecurityCamera Unit Unit ℕ (some ()) none (fun _ _ n => n + 1) 7 = 7 := by
  have h := C9_capture_skip Unit Unit ℕ none (some ()) (some ()) none
    (fun _ _ n => n + 1) (fun _ _ n => n + 1) 7
  exact ⟨⟨Or.inl rfl, Or.inr rfl⟩, h.1 (Or.inl rfl), h.2 (Or.inr rfl)⟩

/-- The face raster: the 256 x 160 off-screen LCD canvas
(RobotScene.tsx lines 1245-1247), one CSS color string per pixel. -/
def FaceRaster : Type := Fin 256 → Fin 160 → String

/-- Canvas fillRect on the face raster. -/
def fillRect (x0 y0 rw rh : ℚ) (color : String) (r : FaceRaster) : FaceRaster :=
  fun i j =>
    if x0 ≤ (i.val : ℚ) ∧ (i.val : ℚ) < x0 + rw ∧
        y0 ≤ (j.val : ℚ) ∧ (j.val : ℚ) < y0 + rh then color
    else r i j

/-- One drawing primitive issued by drawFaceLocal, with its numeric
arguments as they appear in the source (RobotScene.tsx lines 1513-1700).
Arc start/end angles are recorded in units of Math.PI; ellipse and
rectangle rotations are raw radians.  The loading-expression dot keeps
its index, the time and the precomputed cyclic alpha; its trigonometric
screen position is left to the rasterizer. -/
inductive FaceOp where
  | ellipseFill (cx cy rx ry rot : ℚ)
  | ellipseStroke (cx cy rx ry rot lineWidth : ℚ)
  | arcFill (cx cy rad a0 a1 : ℚ)
  | arcStroke (cx cy rad a0 a1 lineWidth : ℚ)
  | lineStroke (x0 y0 x1 y1 lineWidth : ℚ)
  | quadStroke (x0 y0 qx qy x1 y1 lineWidth : ℚ)
  | quad2Stroke (x0 y0 q1x q1y mx my q2x q2y x1 y1 lineWidth : ℚ)
  | heartFill (cx cy size : ℚ)
  | starFillBlack (cx cy size : ℚ)
  | rotRectFill (tx ty rot x y rw rh : ℚ)
  | textGlyph (s : String) (x y fontSize : ℚ)
  | loadingDot (i : ℕ) (time alpha : ℚ)

/-- The fractional part used by the loading-dot alpha
((i / dotCount + time * 0.002) % 1, RobotScene.tsx line 1587). -/
def qfract (q : ℚ) : ℚ := q - ⌊q⌋

/-- The primitive sequence drawn for each expression id,
RobotScene.tsx lines 1513-1700.  blinkCycle is Math.sin(time * 0.003);
an unknown expression id draws nothing. -/
def faceOps (expression : String) (time blinkCycle : ℚ) : List FaceOp :=
  let w : ℚ := 256
  let h : ℚ := 160
  let eyeY := h * 0.42
  let eyeSpacing := w * 0.22
  let eyeWidth : ℚ := 35
  let eyeHeight : ℚ := 45
  let blinkScale : ℚ := if 0.95 < blinkCycle then 0.1 else 1
  if expression = "neutral" then
    [.ellipseFill (w/2 - eyeSpacing) eyeY eyeWidth (eyeHeight * blinkScale) 0,
     .ellipseFill (w/2 + eyeSpacing) eyeY eyeWidth (eyeHeight * blinkScale) 0,
     .arcStroke (w/2) (h * 0.72) 25 0.1 0.9 3]
  else if expression = "happy" then
    [.arcStroke (w/2 - eyeSpacing) (eyeY + 10) 28 1 2 8,
     .arcStroke (w/2 + eyeSpacing) (eyeY + 10) 28 1 2 8,
     .arcStroke (w/2) (h * 0.68) 35 0.15 0.85 4]
  else if expression = "thinking" then
    [.ellipseFill (w/2 - eyeSpacing) eyeY eyeWidth (eyeHeight * blinkScale) 0,
     .ellipseFill (w/2 + eyeSpacing) (eyeY - 8) (eyeWidth * 0.9) (eyeHeight * 0.7) (-0.2),
     .quadStroke (w/2 - 25) (h * 0.72) (w/2) (h * 0.68) (w/2 + 25) (h * 0.72) 3]
  else if expression = "surprised" then
    [.arcFill (w/2 - eyeSpacing) eyeY 32 0 2,
     .arcFill (w/2 + eyeSpacing) eyeY 32 0 2,
     .arcStroke (w/2) (h * 0.72) 18 0 2 4]
  else if expression = "love" then
    [.heartFill (w/2 - eyeSpacing) (eyeY - 25) 22,
     .heartFill (w/2 + eyeSpacing) (eyeY - 25) 22,
     .arcStroke (w/2) (h * 0.7) 30 0.1 0.9 3]
  else if expression = "loading" then
    (List.range 8).map (fun i =>
      .loadingDot i time (qfract ((i : ℚ) / 8 + time * 0.002)))
  else if expression = "sad" then
    [.ellipseFill (w/2 - eyeSpacing) (eyeY + 8) (eyeWidth * 0.9)
        (eyeHeight * 0.6 * blinkScale) 0.2,
     .ellipseFill (w/2 + eyeSpacing) (eyeY + 8) (eyeWidth * 0.9)
        (eyeHeight * 0.6 * blinkScale) (-0.2),
     .arcStroke (w/2) (h * 0.82) 25 1.1 1.9 4]
  else if expression = "angry" then
    [.rotRectFill (w/2 - eyeSpacing) eyeY (-0.3) (-eyeWidth)
        (-eyeHeight * 0.3 * blinkScale) (eyeWidth * 2) (eyeHeight * 0.6 * blinkScale),
     .rotRectFill (w/2 + eyeSpacing) eyeY 0.3 (-eyeWidth)
        (-eyeHeight * 0.3 * blinkScale) (eyeWidth * 2) (eyeHeight * 0.6 * blinkScale),
     .lineStroke (w/2 - 30) (h * 0.72) (w/2 + 30) (h * 0.72) 5]
  else if expression = "wink" then
    [.ellipseFill (w/2 - eyeSpacing) eyeY eyeWidth (eyeHeight * blinkScale) 0,
     .arcStroke (w/2 + eyeSpacing) eyeY 25 0 1 6,
     .arcStroke (w/2 + 10) (h * 0.70) 30 0.1 0.9 4]
  else if expression = "excited" then
    [.arcFill (w/2 - eyeSpacing) eyeY 30 0 2,
     .arcFill (w/2 + eyeSpacing) eyeY 30 0 2,
     .starFillBlack (w/2 - eyeSpacing - 8) (eyeY - 8) 8,
     .starFillBlack (w/2 + eyeSpacing - 8) (eyeY - 8) 8,
     .arcStroke (w/2) (h * 0.68) 35 0.1 0.9 4,
     .lineStroke (w/2 - 20) (h * 0.72) (w/2 + 20) (h * 0.72) 4]
  else if expression = "sleepy" then
    [.arcStroke (w/2 - eyeSpacing) (eyeY + 5) 25 0.3 0.7 6,
     .arcStroke (w/2 + eyeSpacing) (eyeY + 5) 25 0.3 0.7 6,
     .ellipseStroke (w/2) (h * 0.73) 15 20 0 6,
     .textGlyph "z" (w * 0.75) (h * 0.35) 18,
     .textGlyph "z" (w * 0.80) (h * 0.28) 14,
     .textGlyph "z" (w * 0.84) (h * 0.22) 10]
  else if expression = "confused" then
    [.ellipseFill (w/2 - eyeSpacing) eyeY eyeWidth (eyeHeight * blinkScale) 0,
     .ellipseFill (w/2 + eyeSpacing) (eyeY - 5) (eyeWidth * 0.8)
        (eyeHeight * 0.7 * blinkScale) 0,
     .textGlyph "?" (w/2 + eyeSpacing + 15) (eyeY - 25) 24,
     .quad2Stroke (w/2 - 30) (h * 0.72) (w/2 - 10) (h * 0.68) (w/2) (h * 0.72)
        (w/2 + 10) (h * 0.76) (w/2 + 30) (h * 0.72) 4]
  else []

/-- drawFaceLocal, RobotScene.tsx lines 1461-1703.  The draw starts by
overwriting the whole raster with the dark LCD background; with an
unexpired override text the word-wrapped lines are drawn centered and
the expression is skipped; otherwise the primitive sequence of the
current expression is applied.  The rasterization of each primitive
under the glow/blur context state is abstracted as interp; sinF
abstracts Math.sin and measureTextW abstracts ctx.measureText. -/
def drawFaceLocal (interp : FaceOp → String → FaceRaster → FaceRaster)
    (sinF : ℚ → ℚ) (measureTextW : String → ℚ)
    (expression faceColor : String) (time : ℚ) (displayText : Option String)
    (raster : FaceRaster) : FaceRaster :=
  let w : ℚ := 256
  let h : ℚ := 160
  let r0 := fillRect 0 0 w h "#0a0a1a" raster
  match displayText with
  | some text =>
      let acc := (text.splitOn " ").foldl
        (fun (acc : List String × String) word =>
          let testLine := acc.2 ++ (if acc.2 = "" then "" else " ") ++ word
          if w - 40 < measureTextW testLine then (acc.1 ++ [acc.2], word)
          else (acc.1, testLine)) ([], "")
      let lines := acc.1 ++ [acc.2]
      let lineHeight : ℚ := 32
      let startY := h / 2 - ((lines.length : ℚ) - 1) * lineHeight / 2
      lines.enum.foldl
        (fun racc il =>
          interp (FaceOp.textGlyph il.2 (w / 2) (startY + (il.1 : ℚ) * lineHeight) 28)
            faceColor racc) r0
  | none =>
      (faceOps expression time (sinF (time * 0.003))).foldl
        (fun racc op => interp op faceColor racc) r0

theorem fillRect_full (c : String) (r : FaceRaster) :
    fillRect 0 0 256 160 c r = fun _ _ => c := by
  funext i j
  rw [fillRect, if_pos]
  refine ⟨Nat.cast_nonneg _, ?_, Nat.cast_nonneg _, ?_⟩
  · rw [zero_add]
    exact_mod_cast i.isLt
  · rw [zero_add]
    exact_mod_cast j.isLt

/-- C8.  The expression renderer is deterministic in the prior raster
contents: for a fixed (expression, color, time, no override text) tuple
and any rasterizer interpretation, two invocations from arbitrary prior
rasters give identical output, because the draw begins by overwriting
every pixel with the background color. -/
theorem C8_renderer_deterministic (interp : FaceOp → String → FaceRaster → FaceRaster)
    (sinF : ℚ → ℚ) (measureTextW : String → ℚ) (expression faceColor : String)
    (time : ℚ) (r1 r2 : FaceRaster) :
    drawFaceLocal interp sinF measureTextW expression faceColor time none r1 =
    drawFaceLocal interp sinF measureTextW expression faceColor time none r2 := by
  simp only [drawFaceLocal, fillRect_full]

/-- One integrator step with no input flags, dt = 0.1, an empty obstacle
registry, and interpretations of the trigonometric functions that agree
with the real ones at 0, the only rotation the C2 counterexample
trajectory reaches. -/
def stepC : KinState → KinState :=
  integratorStep zeroFun oneFun zeroFun [] noInput (1/10)

/-- The C2 counterexample start state: at rest at the origin except for
a residual velocity of 0.15. -/
def sA : KinState := { zeroState with velocity := 3/20 }

/-- The state half way through the 2-cycle of the C2 counterexample. -/
def sB : KinState := { zeroState with z := -(3/200), velocity := -(3/20) }

/-- The components of the state that feed back into the velocity
channel: position, rotation and the three velocities plus head yaw. -/
def tracked (s : KinState) : ℚ × ℚ × ℚ × ℚ × ℚ × ℚ × ℚ :=
  (s.x, s.z, s.rotation, s.velocity, s.angularVelocity, s.headRotY, s.headAngularVel)

set_option maxHeartbeats 1600000 in
theorem tracked_congr (s s' : KinState) (h : tracked s = tracked s') :
    tracked (stepC s) = tracked (stepC s') := by
  cases s
  cases s'
  simp only [tracked, Prod.mk.injEq] at h
  obtain ⟨h1, h2, h3, h4, h5, h6, h7⟩ := h
  subst h1 h2 h3 h4 h5 h6 h7
  rfl

theorem stepC_sA : tracked (stepC sA) = tracked sB := by
  norm_num [tracked, stepC, sA, sB, zeroState, integratorStep, updateMovement, stepVelocity,
    stepAngular, stepHeadVel, targetVel, qsign, qmin, qmax, qabs, resolveCollisions,
    checkObjectCollision, checkWallCollision, noInput, zeroFun, oneFun,
    PHYSICS.maxSpeed, PHYSICS.friction, PHYSICS.turnFriction, PHYSICS.headFriction,
    PHYSICS.headMaxRotation, ROBOT_RADIUS, COLLISION_PADDING]

theorem stepC_sB : tracked (stepC sB) = tracked sA := by
  norm_num [tracked, stepC, sA, sB, zeroState, integratorStep, updateMovement, stepVelocity,
    stepAngular, stepHeadVel, targetVel, qsign, qmin, qmax, qabs, resolveCollisions,
    checkObjectCollision, checkWallCollision, noInput, zeroFun, oneFun,
    PHYSICS.maxSpeed, PHYSICS.friction, PHYSICS.turnFriction, PHYSICS.headFriction,
    PHYSICS.headMaxRotation, ROBOT_RADIUS, COLLISION_PADDING]

theorem c2_traj (n : ℕ) :
    tracked ((stepC)^[n] sA) = if n % 2 = 0 then tracked sA else tracked sB := by
  induction n with
  | zero => simp
  | succ k ih =>
    rw [Function.iterate_succ_apply']
    by_cases hk : k % 2 = 0
    · rw [if_pos hk] at ih
      rw [tracked_congr _ _ ih, stepC_sA, if_neg (by omega)]
    · rw [if_neg hk] at ih
      rw [tracked_congr _ _ ih, stepC_sB, if_pos (by omega)]

theorem c2_velocity (n : ℕ) :
    ((stepC)^[n] sA).velocity = if n % 2 = 0 then 3/20 else -(3/20) := by
  have h := c2_traj n
  by_cases hn : n % 2 = 0
  · rw [if_pos hn] at h
    rw [if_pos hn]
    exact congrArg (fun t => t.2.2.2.1) h
  · rw [if_neg hn] at h
    rw [if_neg hn]
    exact congrArg (fun t => t.2.2.2.1) h

/-- C2 counterexample.  Starting from rest with a residual velocity of
0.15 and no input, stepping the integrator with the fixed dt = 0.1
(within the claim's bound), the coasting friction decrement 3 * 0.1 =
0.3 overshoots zero every step: the velocity alternates between 0.15 and
-0.15 forever and never equals 0, so no number of steps makes velocity,
angular velocity, head angular velocity and suspension offset all
exactly zero. -/
theorem C2_counterexample :
    ¬ ∃ n : ℕ,
      ((stepC)^[n] sA).velocity = 0 ∧
      ((stepC)^[n] sA).angularVelocity = 0 ∧
      ((stepC)^[n] sA).headAngularVel = 0 ∧
      ((stepC)^[n] sA).suspensionOffset = 0 := by
  rintro ⟨n, hv, -, -, -⟩
  have h := c2_velocity n
  rw [hv] at h
  by_cases hn : n % 2 = 0
  · rw [if_pos hn] at h
    norm_num at h
  · rw [if_neg hn] at h
    norm_num at h

theorem targetVel_noInput : targetVel noInput = 0 := rfl

theorem stepVelocity_noInput_small (δ v : ℚ) (h : |v| ≤ 1/100) :
    stepVelocity noInput δ v = 0 := by
  simp only [stepVelocity, targetVel_noInput]
  rw [if_neg (show ¬((0:ℚ) ≠ 0) by norm_num)]
  rw [if_neg (show ¬((0.01 : ℚ) < qabs v) by
    rw [qabs_eq]
    exact not_lt.mpr (h.trans (by norm_num)))]

theorem stepVelocity_noInput_coast (δ v : ℚ) (h : 1/100 < |v|) :
    stepVelocity noInput δ v = v - qsign v * 3 * δ := by
  have hf : PHYSICS.friction = 3 := by norm_num [PHYSICS.friction]
  simp only [stepVelocity, targetVel_noInput, hf]
  rw [if_neg (show ¬((0:ℚ) ≠ 0) by norm_num)]
  rw [if_pos (show (0.01 : ℚ) < qabs v by
    rw [qabs_eq, show (0.01 : ℚ) = 1/100 from by norm_num]
    exact h)]

theorem stepAngular_noInput_small (δ v1 av : ℚ) (h : |av| ≤ 1/100) :
    stepAngular noInput δ v1 av = 0 := by
  simp only [stepAngular, noInput]
  norm_num
  intro h'
  rw [qabs_eq] at h'
  exact absurd h' (not_lt.mpr h)

theorem stepAngular_noInput_decay (δ v1 av : ℚ) (h : 1/100 < |av|) :
    stepAngular noInput δ v1 av = av * (1 - 8 * δ) := by
  have htf : PHYSICS.turnFriction = 8 := by norm_num [PHYSICS.turnFriction]
  simp only [stepAngular, noInput, htf]
  norm_num
  intro h'
  rw [qabs_eq] at h'
  exact absurd h' (not_le.mpr h)

theorem stepHeadVel_noInput (δ hv : ℚ) : stepHeadVel noInput δ hv = hv * (1 - 6 * δ) := by
  have hhf : PHYSICS.headFriction = 6 := by norm_num [PHYSICS.headFriction]
  simp only [stepHeadVel, noInput, hhf]
  norm_num

/-- The integrator step with no input flags, as iterated by C2. -/
def stepNI (sinF cosF sqrtF : ℚ → ℚ) (objs : List Obstacle) (dt : ℚ) :
    KinState → KinState :=
  integratorStep sinF cosF sqrtF objs noInput dt

theorem stepNI_angular (sinF cosF sqrtF : ℚ → ℚ) (objs : List Obstacle) (dt : ℚ)
    (s : KinState) :
    (stepNI sinF cosF sqrtF objs dt s).angularVelocity =
      stepAngular noInput (qmin dt 0.1)
        (stepVelocity noInput (qmin dt 0.1) s.velocity) s.angularVelocity := rfl

theorem stepNI_headvel (sinF cosF sqrtF : ℚ → ℚ) (objs : List Obstacle) (dt : ℚ)
    (s : KinState) :
    (stepNI sinF cosF sqrtF objs dt s).headAngularVel =
      stepHeadVel noInput (qmin dt 0.1) s.headAngularVel := rfl

theorem qmin_dt_small (dt : ℚ) (hdt1 : dt ≤ 1/150) : qmin dt (0.1 : ℚ) = dt := by
  rw [qmin_eq]
  exact min_eq_left (hdt1.trans (by norm_num))

theorem stepNI_vel_small (sinF cosF sqrtF : ℚ → ℚ) (objs : List Obstacle) (dt : ℚ)
    (s : KinState) (hv : |s.velocity| ≤ 1/100) :
    (stepNI sinF cosF sqrtF objs dt s).velocity = 0 := by
  obtain ⟨b, hb⟩ : ∃ b : Bool,
      (stepNI sinF cosF sqrtF objs dt s).velocity =
        if b then stepVelocity noInput (qmin dt 0.1) s.velocity * 0.5
        else stepVelocity noInput (qmin dt 0.1) s.velocity := ⟨_, rfl⟩
  rw [hb, stepVelocity_noInput_small _ _ hv]
  cases b <;> norm_num

theorem stepNI_vel_dec (sinF cosF sqrtF : ℚ → ℚ) (objs : List Obstacle) (dt : ℚ)
    (k : ℕ) (s : KinState) (hdt0 : 0 < dt) (hdt1 : dt ≤ 1/150)
    (h1 : 1/100 < |s.velocity|)
    (h2 : |s.velocity| ≤ 1/100 + ((k : ℚ) + 1) * (3 * dt)) :
    |(stepNI sinF cosF sqrtF objs dt s).velocity| ≤ 1/100 + (k : ℚ) * (3 * dt) := by
  obtain ⟨b, hb⟩ : ∃ b : Bool,
      (stepNI sinF cosF sqrtF objs dt s).velocity =
        if b then stepVelocity noInput (qmin dt 0.1) s.velocity * 0.5
        else stepVelocity noInput (qmin dt 0.1) s.velocity := ⟨_, rfl⟩
  rw [qmin_dt_small dt hdt1] at hb
  rw [hb, stepVelocity_noInput_coast dt s.velocity h1, qsign]
  have hk : (0:ℚ) ≤ (k : ℚ) := Nat.cast_nonneg k
  have hkdt : (0:ℚ) ≤ (k : ℚ) * dt := mul_nonneg hk (le_of_lt hdt0)
  cases b
  · rw [if_neg (show ¬(false = true) by norm_num)]
    rcases lt_trichotomy s.velocity 0 with hn | hz | hp
    · rw [if_neg (show ¬(0 < s.velocity) by linarith), if_pos hn]
      rw [abs_of_neg hn] at h1 h2
      rw [abs_le]
      constructor <;> nlinarith
    · rw [hz, abs_zero] at h1
      norm_num at h1
    · rw [if_pos hp]
      rw [abs_of_pos hp] at h1 h2
      rw [abs_le]
      constructor <;> nlinarith
  · rw [if_pos rfl]
    rcases lt_trichotomy s.velocity 0 with hn | hz | hp
    · rw [if_neg (show ¬(0 < s.velocity) by linarith), if_pos hn]
      rw [abs_of_neg hn] at h1 h2
      rw [abs_le]
      constructor <;> nlinarith
    · rw [hz, abs_zero] at h1
      norm_num at h1
    · rw [if_pos hp]
      rw [abs_of_pos hp] at h1 h2
      rw [abs_le]
      constructor <;> nlinarith

theorem stepNI_vel_zero_iter (sinF cosF sqrtF : ℚ → ℚ) (objs : List Obstacle) (dt : ℚ)
    (j : ℕ) (s : KinState) (hv : s.velocity = 0) :
    ((stepNI sinF cosF sqrtF objs dt)^[j] s).velocity = 0 := by
  induction j generalizing s with
  | zero => simpa using hv
  | succ k ih =>
    rw [Function.iterate_succ_apply]
    exact ih _ (stepNI_vel_small sinF cosF sqrtF objs dt s (by rw [hv]; norm_num))

theorem stepNI_vel_converge (sinF cosF sqrtF : ℚ → ℚ) (objs : List Obstacle) (dt : ℚ)
    (k : ℕ) (hdt0 : 0 < dt) (hdt1 : dt ≤ 1/150) :
    ∀ s : KinState, |s.velocity| ≤ 1/100 + (k : ℚ) * (3 * dt) →
      ((stepNI sinF cosF sqrtF objs dt)^[k+1] s).velocity = 0 := by
  induction k with
  | zero =>
    intro s hs
    simp only [Nat.cast_zero, zero_mul, add_zero] at hs
    rw [Function.iterate_one]
    exact stepNI_vel_small sinF cosF sqrtF objs dt s hs
  | succ k ih =>
    intro s hs
    push_cast at hs
    by_cases h : |s.velocity| ≤ 1/100
    · have h1 : (stepNI sinF cosF sqrtF objs dt s).velocity = 0 :=
        stepNI_vel_small sinF cosF sqrtF objs dt s h
      rw [Function.iterate_succ_apply]
      exact stepNI_vel_zero_iter sinF cosF sqrtF objs dt (k+1) _ h1
    · push_neg at h
      have h2 := stepNI_vel_dec sinF cosF sqrtF objs dt k s hdt0 hdt1 h hs
      rw [Function.iterate_succ_apply]
      exact ih _ h2

theorem stepNI_av_zero_iter (sinF cosF sqrtF : ℚ → ℚ) (objs : List Obstacle) (dt : ℚ)
    (j : ℕ) (s : KinState) (hav : s.angularVelocity = 0) :
    ((stepNI sinF cosF sqrtF objs dt)^[j] s).angularVelocity = 0 := by
  induction j generalizing s with
  | zero => simpa using hav
  | succ k ih =>
    rw [Function.iterate_succ_apply]
    refine ih _ ?_
    rw [stepNI_angular, hav, stepAngular_noInput_small _ _ _ (by norm_num)]

theorem stepNI_av_bound (sinF cosF sqrtF : ℚ → ℚ) (objs : List Obstacle) (dt : ℚ)
    (s : KinState) (hdt0 : 0 < dt) (hdt1 : dt ≤ 1/150) (n : ℕ) :
    ((stepNI sinF cosF sqrtF objs dt)^[n] s).angularVelocity = 0 ∨
    |((stepNI sinF cosF sqrtF objs dt)^[n] s).angularVelocity| ≤
      |s.angularVelocity| * (1 - 8 * dt) ^ n := by
  have hr0 : (0:ℚ) ≤ 1 - 8 * dt := by linarith
  induction n with
  | zero =>
    right
    simp
  | succ k ih =>
    rw [Function.iterate_succ_apply']
    rcases ih with h0 | hb
    · left
      rw [stepNI_angular, h0, stepAngular_noInput_small _ _ _ (by norm_num)]
    · by_cases hsm : |((stepNI sinF cosF sqrtF objs dt)^[k] s).angularVelocity| ≤ 1/100
      · left
        rw [stepNI_angular, stepAngular_noInput_small _ _ _ hsm]
      · right
        push_neg at hsm
        rw [stepNI_angular, stepAngular_noInput_decay _ _ _ hsm, qmin_dt_small dt hdt1]
        rw [abs_mul, abs_of_nonneg hr0, pow_succ]
        calc |((stepNI sinF cosF sqrtF objs dt)^[k] s).angularVelocity| * (1 - 8 * dt)
            ≤ |s.angularVelocity| * (1 - 8 * dt) ^ k * (1 - 8 * dt) :=
              mul_le_mul_of_nonneg_right hb hr0
          _ = |s.angularVelocity| * ((1 - 8 * dt) ^ k * (1 - 8 * dt)) := by ring

theorem stepNI_hav_iter (sinF cosF sqrtF : ℚ → ℚ) (objs : List Obstacle) (dt : ℚ)
    (s : KinState) (hdt1 : dt ≤ 1/150) (n : ℕ) :
    ((stepNI sinF cosF sqrtF objs dt)^[n] s).headAngularVel =
      s.headAngularVel * (1 - 6 * dt) ^ n := by
  induction n with
  | zero => simp
  | succ k ih =>
    rw [Function.iterate_succ_apply', stepNI_headvel, stepHeadVel_noInput,
      qmin_dt_small dt hdt1, ih, pow_succ]
    ring

set_option maxHeartbeats 1000000 in
/-- C2 as amended.  With no input flags, any obstacle registry, any
interpretation of the abstracted real functions, and a fixed dt that is
positive and small enough that the friction decrement cannot overshoot
the snap threshold (dt at most 1/150), the linear velocity and angular
velocity become exactly 0 after finitely many steps and stay 0.  The
head angular velocity, however, is multiplied by the constant factor
1 - headFriction * dt each step with no snap to zero: it decays
geometrically and, in exact arithmetic, never equals 0 unless it starts
there.  (The suspension offset likewise only converges in the limit; no
exactness claim holds for it.) -/
theorem C2_convergence_amended (sinF cosF sqrtF : ℚ → ℚ) (objs : List Obstacle)
    (dt : ℚ) (s : KinState) (hdt0 : 0 < dt) (hdt1 : dt ≤ 1/150) :
    (∃ N : ℕ, ∀ n : ℕ, N ≤ n →
      ((integratorStep sinF cosF sqrtF objs noInput dt)^[n] s).velocity = 0 ∧
      ((integratorStep sinF cosF sqrtF objs noInput dt)^[n] s).angularVelocity = 0) ∧
    (∀ n : ℕ, ((integratorStep sinF cosF sqrtF objs noInput dt)^[n] s).headAngularVel
        = s.headAngularVel * (1 - 6 * dt) ^ n) ∧
    (s.headAngularVel ≠ 0 → ∀ n : ℕ,
      ((integratorStep sinF cosF sqrtF objs noInput dt)^[n] s).headAngularVel ≠ 0) := by
  have hfold : integratorStep sinF cosF sqrtF objs noInput dt =
      stepNI sinF cosF sqrtF objs dt := rfl
  rw [hfold]
  have h3dt : (0:ℚ) < 3 * dt := by linarith
  obtain ⟨k, hk⟩ := exists_nat_ge (|s.velocity| / (3 * dt))
  have hkv : |s.velocity| ≤ 1/100 + (k : ℚ) * (3 * dt) := by
    have h := (div_le_iff₀ h3dt).mp hk
    linarith
  have hNv : ((stepNI sinF cosF sqrtF objs dt)^[k+1] s).velocity = 0 :=
    stepNI_vel_converge sinF cosF sqrtF objs dt k hdt0 hdt1 s hkv
  have hr0 : (0:ℚ) ≤ 1 - 8 * dt := by linarith
  have hr1 : 1 - 8 * dt < 1 := by linarith
  have hx : (0:ℚ) < (1/100) / (|s.angularVelocity| + 1) := by positivity
  obtain ⟨n0, hn0⟩ := exists_pow_lt_of_lt_one hx hr1
  have hA1 : (0:ℚ) < |s.angularVelocity| + 1 := by positivity
  have hn0' : (1 - 8 * dt) ^ n0 * (|s.angularVelocity| + 1) < 1/100 :=
    (lt_div_iff₀ hA1).mp hn0
  have hNa : ((stepNI sinF cosF sqrtF objs dt)^[n0+1] s).angularVelocity = 0 := by
    rw [Function.iterate_succ_apply']
    rcases stepNI_av_bound sinF cosF sqrtF objs dt s hdt0 hdt1 n0 with h0 | hb
    · rw [stepNI_angular, h0, stepAngular_noInput_small _ _ _ (by norm_num)]
    · have hsm : |((stepNI sinF cosF sqrtF objs dt)^[n0] s).angularVelocity| ≤ 1/100 := by
        nlinarith [pow_nonneg hr0 n0, abs_nonneg s.angularVelocity]
      rw [stepNI_angular, stepAngular_noInput_small _ _ _ hsm]
  refine ⟨⟨max (k+1) (n0+1), ?_⟩, ?_, ?_⟩
  · intro n hn
    have hnv : k+1 ≤ n := le_trans (le_max_left _ _) hn
    have hna : n0+1 ≤ n := le_trans (le_max_right _ _) hn
    constructor
    · have heq : (stepNI sinF cosF sqrtF objs dt)^[n] s =
          (stepNI sinF cosF sqrtF objs dt)^[n - (k+1)]
            ((stepNI sinF cosF sqrtF objs dt)^[k+1] s) := by
        rw [← Function.iterate_add_apply, Nat.sub_add_cancel hnv]
      rw [heq]
      exact stepNI_vel_zero_iter sinF cosF sqrtF objs dt (n - (k+1)) _ hNv
    · have heq : (stepNI sinF cosF sqrtF objs dt)^[n] s =
          (stepNI sinF cosF sqrtF objs dt)^[n - (n0+1)]
            ((stepNI sinF cosF sqrtF objs dt)^[n0+1] s) := by
        rw [← Function.iterate_add_apply, Nat.sub_add_cancel hna]
      rw [heq]
      exact stepNI_av_zero_iter sinF cosF sqrtF objs dt (n - (n0+1)) _ hNa
  · exact stepNI_hav_iter sinF cosF sqrtF objs dt s hdt1
  · intro h0 n
    rw [stepNI_hav_iter sinF cosF sqrtF objs dt s hdt1 n]
    have h6 : (0:ℚ) < 1 - 6 * dt := by linarith
    exact mul_ne_zero h0 (pow_ne_zero _ (ne_of_gt h6))

/-- Witness for the amended C2 at dt = 1/150 and a start state with
unit head angular velocity. -/
theorem C2_amended_witness :
    (0 : ℚ) < 1/150 ∧ (1/150 : ℚ) ≤ 1/150 ∧
    ((∃ N : ℕ, ∀ n : ℕ, N ≤ n →
      ((integratorStep zeroFun oneFun zeroFun [] noInput (1/150))^[n]
          { zeroState with headAngularVel := 1 }).velocity = 0 ∧
      ((integratorStep zeroFun oneFun zeroFun [] noInput (1/150))^[n]
          { zeroState with headAngularVel := 1 }).angularVelocity = 0) ∧
    (∀ n : ℕ, ((integratorStep zeroFun oneFun zeroFun [] noInput (1/150))^[n]
          { zeroState with headAngularVel := 1 }).headAngularVel
        = ({ zeroState with headAngularVel := 1 } : KinState).headAngularVel *
            (1 - 6 * (1/150)) ^ n) ∧
    (({ zeroState with headAngularVel := 1 } : KinState).headAngularVel ≠ 0 → ∀ n : ℕ,
      ((integratorStep zeroFun oneFun zeroFun [] noInput (1/150))^[n]
          { zeroState with headAngularVel := 1 }).headAngularVel ≠ 0)) := by
  refine ⟨by norm_num, le_refl _, ?_⟩
  exact C2_convergence_amended zeroFun oneFun zeroFun [] (1/150)
    { zeroState with headAngularVel := 1 } (by norm_num) (le_refl _)
